import Mathlib

/-!
# Lost-and-found backend: search, pagination and category aggregation

A shallow embedding of `server/controllers/foundController.js`,
`server/controllers/lostController.js`,
`server/controllers/categoryController.js`, of the add middlewares
`server/middlewares/foundMiddleware.js` and `server/middlewares/lostMiddleware.js`,
of the upload storage `server/utils/multer.js` and of the forgot-password
handlers of `server/controllers/authorizationConroller.js`.

Modelling conventions

* A collection is the list of its documents in natural (enumeration) order.
* One record type `Item` stands for both `LostItem` and `FoundItem`; its field
  `eventDate` is `lostDate` in the lost collection and `foundDate` in the
  found collection.  The namespace `Source` has the two search handlers
  transcribed apart, with the field names of the source, and both are proved
  equal to the search of this model.
* Object ids are strings in canonical form; the cast of an id string to an
  `ObjectId` is not modelled.
* A JavaScript `Date` is its time value in milliseconds, `none` being
  `Invalid Date`.  The built-in constructor `new Date(string)` is a parameter
  `newDate` of every definition that calls it.
* A raw query-string value is `Option String` (`none` when the key is absent);
  the value of `page`, which the handlers use as a number, is a `PageParam`.
* The `catch` block of a handler answers 500; the thrown fault is kept in
  place of its message text.
* A handler that writes returns the collection as it leaves it and the trace
  of the effects it requests, in order; `deleteImage` is a request, the file
  being removed later and whatever the handler does next.
* The store applies the schema to an update document: the `trim` setters of
  `name` and `description`, the cast of the date, the `updatedAt` timestamp.
-/

namespace LostAndFound

/-! ## Data model -/

/-- Modelled from the spec: a `Category` document `{id, name}`; `models/Category.js` is not
among the sources, the controllers read `_id` and `name`. -/
structure Category where
  id : String
  name : String
  deriving DecidableEq, Repr

/-- A `LostItem` document (`models/LostItem.js`, with the two timestamps of the schema
option); `eventDate` is its field `lostDate`. -/
structure Item where
  id : String
  name : String
  description : String
  categoryId : String
  userId : String
  images : List String
  eventDate : Int
  createdAt : Int
  updatedAt : Int
  deriving DecidableEq, Repr

/-- Modelled from the spec: a `FoundItem` document; `models/FoundItem.js` is not among the
sources. It has the shape of a lost item, `eventDate` being its field `foundDate`. -/
abbrev FoundItem := Item

/-- A JavaScript `Date` value: `none` is `Invalid Date`. -/
abbrev JsDate := Option Int

/-- What a handler's `catch` block can receive. -/
inductive Fault where
  /-- Mongoose `CastError`: an `Invalid Date` in a query condition on a date path. -/
  | castDate
  /-- The `$regex` pattern is rejected by the store, or it uses an operator outside the
  fragment of the pattern language that is modelled. -/
  | badRegex
  /-- The store rejects a negative `skip`. -/
  | negativeSkip
  /-- `TypeError`: a property of `null` is read. -/
  | nullDeref
  /-- `TypeError`: assignment to a `const` variable. -/
  | constAssign
  /-- The store, or the connection to it, fails. -/
  | storeError
  /-- Mongoose `ValidationError`: `save()` rejects the document. -/
  | validation
  deriving DecidableEq, Repr

/-- What a handler sends. -/
inductive Reply (β : Type) where
  /-- The call `res.status(status).json(body)` with a payload. -/
  | json (status : Nat) (body : β)
  /-- The call `res.status(status).json({message: text})`. -/
  | message (status : Nat) (text : String)
  /-- The `catch` block: `res.status(500).json({message: err.message || ...})`. -/
  | unexpected (fault : Fault)
  deriving DecidableEq, Repr

/-- The HTTP status of a reply. -/
def Reply.status {β : Type} : Reply β → Nat
  | .json s _ => s
  | .message s _ => s
  | .unexpected _ => 500

/-- JavaScript truthiness of an optional string: defined and not `""`. -/
def truthy : Option String → Bool
  | none => false
  | some s => s != ""

/-! ## The `$regex` operator with option `i`

The pattern language of the store is PCRE.  The fragment modelled is: a
sequence of ordinary characters and the wildcard `.`.  A pattern that uses any
other special character (backslash, `^ $ | ? * + ( ) [ ]` and the braces) lies
outside the fragment; `compileRegex` returns `none` for it, as for a pattern
that the store rejects.  Case folding is that of the ASCII letters. -/

/-- One element of a compiled pattern. -/
inductive RegexAtom where
  /-- An ordinary character, matched up to case. -/
  | char (c : Char)
  /-- The wildcard `.`: any character but a line feed. -/
  | anyChar
  deriving DecidableEq, Repr

/-- The special characters of the pattern language other than `.`. -/
def regexOperators : List Char :=
  [Char.ofNat 92, '^', '$', '|', '?', '*', '+', '(', ')', '[', ']', Char.ofNat 123, Char.ofNat 125]

/-- Compile one pattern character. -/
def compileChar (c : Char) : Option RegexAtom :=
  if c = '.' then some RegexAtom.anyChar
  else if c ∈ regexOperators then none
  else some (RegexAtom.char c)

/-- Compile a pattern of the fragment. -/
def compileRegex (pattern : String) : Option (List RegexAtom) :=
  pattern.toList.mapM compileChar

/-- Does the atom accept the character (option `i`)? -/
def RegexAtom.accepts : RegexAtom → Char → Bool
  | .char c, x => c.toLower == x.toLower
  | .anyChar, x => x != Char.ofNat 10

/-- Does the pattern match at the start of the text? -/
def matchHere : List RegexAtom → List Char → Bool
  | [], _ => true
  | _ :: _, [] => false
  | a :: as, x :: xs => a.accepts x && matchHere as xs

/-- Unanchored search: does the pattern match at some position of the text? -/
def regexSearch (p : List RegexAtom) : List Char → Bool
  | [] => matchHere p []
  | x :: xs => matchHere p (x :: xs) || regexSearch p xs

/-- The condition `{ $regex: pattern, $options: 'i' }` on a string field; `false` when
the pattern does not compile (the query then fails as a whole, see `Filter.fault`). -/
def regexTest (pattern : String) (field : String) : Bool :=
  match compileRegex pattern with
  | none => false
  | some p => regexSearch p field.toList

/-! ## Query conditions -/

/-- A condition object on a date path: the keys `$gte` and `$lte`, each optional. -/
structure DateRange where
  gte : Option JsDate := none
  lte : Option JsDate := none
  deriving DecidableEq, Repr

/-- The query object handed to `find` / `countDocuments`: the keys `lostDate` or
`foundDate` (here `eventDate`), `$or` (the pattern of its two `$regex` branches on
`name` and `description`) and `categoryId`, each optional. -/
structure Filter where
  eventDate : Option DateRange := none
  or : Option String := none
  categoryId : Option String := none
  deriving DecidableEq, Repr

/-- The condition `$gte` of the store: `false` against an `Invalid Date`. -/
def gteHolds (bound : JsDate) (value : Int) : Bool :=
  match bound with
  | none => false
  | some t => decide (t ≤ value)

/-- The condition `$lte` of the store: `false` against an `Invalid Date`. -/
def lteHolds (bound : JsDate) (value : Int) : Bool :=
  match bound with
  | none => false
  | some t => decide (value ≤ t)

/-- A date condition object holds when each of its keys does. -/
def DateRange.holds (r : DateRange) (value : Int) : Bool :=
  (match r.gte with | none => true | some b => gteHolds b value) &&
  (match r.lte with | none => true | some b => lteHolds b value)

/-- The `$or` of the two `$regex` conditions on `name` and `description`. -/
def textHolds (pattern : String) (item : Item) : Bool :=
  regexTest pattern item.name || regexTest pattern item.description

/-- The key `lostDate` / `foundDate` of a query object, on one document. -/
def Filter.dateOk (f : Filter) (item : Item) : Bool :=
  match f.eventDate with
  | none => true
  | some r => r.holds item.eventDate

/-- The key `$or` of a query object, on one document. -/
def Filter.textOk (f : Filter) (item : Item) : Bool :=
  match f.or with
  | none => true
  | some p => textHolds p item

/-- The key `categoryId` of a query object, on one document. -/
def Filter.categoryOk (f : Filter) (item : Item) : Bool :=
  match f.categoryId with
  | none => true
  | some c => item.categoryId == c

/-- A document matches a query object when it satisfies every key that is present. -/
def Filter.matches (f : Filter) (item : Item) : Bool :=
  f.dateOk item && f.textOk item && f.categoryOk item

/-- Is one of the keys of the date condition an `Invalid Date`? -/
def DateRange.invalid (r : DateRange) : Bool :=
  r.gte == some none || r.lte == some none

/-- The fault with which a query on this object fails, if any: the cast of the
query object comes first, the pattern is checked by the store. -/
def Filter.fault (f : Filter) : Option Fault :=
  if (match f.eventDate with | none => false | some r => r.invalid) then some Fault.castDate
  else match f.or with
    | none => none
    | some p => if (compileRegex p).isSome then none else some Fault.badRegex

/-- The call `Model.find(filter)`: the matching documents in natural order. -/
def find (docs : List Item) (f : Filter) : Except Fault (List Item) :=
  match f.fault with
  | some e => .error e
  | none => .ok (docs.filter f.matches)

/-- The call `Model.countDocuments(filter)`: the number of matching documents. -/
def countDocuments (docs : List Item) (f : Filter) : Except Fault Nat :=
  match find docs f with
  | .error e => .error e
  | .ok matching => .ok matching.length

/-! ## Requests and the store -/

/-- A `User` document (`models/User.js`). -/
structure User where
  id : String
  name : String
  surname : String
  email : String
  password : String
  telegram : Option String
  phone : Option String
  deriving DecidableEq, Repr

/-- The database: each collection in natural order. -/
structure Store where
  categories : List Category := []
  users : List User := []
  lostItems : List Item := []
  foundItems : List FoundItem := []
  deriving DecidableEq, Repr

/-- The raw value of `req.query.page` as the expression `page - 1` sees it. A
query-string value is a string, so the number 0 arrives as the non-empty,
hence truthy, string `"0"`: it is `numeric 0`, not `empty`. Strings that do not
denote an integer are not represented. -/
inductive PageParam where
  /-- The key is missing: `undefined`. -/
  | absent
  /-- The empty string. -/
  | empty
  /-- A non-empty string that denotes the integer `n`. -/
  | numeric (n : Int)
  deriving DecidableEq, Repr

/-- The object `req.query` of a search request. -/
structure SearchQuery where
  query : Option String := none
  categoryId : Option String := none
  dateFrom : Option String := none
  dateTo : Option String := none
  sort : Option String := none
  page : PageParam := PageParam.absent
  deriving DecidableEq, Repr

/-! ## `foundItemSearch` / `lostItemSearch` -/

/-- The assignment `filter.foundDate = {...filter.foundDate, $gte: d}`. -/
def Filter.setGte (f : Filter) (d : JsDate) : Filter :=
  { f with eventDate := some { (f.eventDate.getD {}) with gte := some d } }

/-- The assignment `filter.foundDate = {...filter.foundDate, $lte: d}`. -/
def Filter.setLte (f : Filter) (d : JsDate) : Filter :=
  { f with eventDate := some { (f.eventDate.getD {}) with lte := some d } }

/-- The two date conditionals (`foundController.js` 123-128, `lostController.js`
124-129, `categoryController.js` 38-43 and 46-51). -/
def addDateBounds (newDate : String → JsDate) (dateFrom dateTo : Option String)
    (f : Filter) : Filter :=
  let f := match dateFrom with
    | some d => if d.length > 0 then f.setGte (newDate d) else f
    | none => f
  match dateTo with
  | some d => if d.length > 0 then f.setLte (newDate d) else f
  | none => f

/-- The conditional `if(query)` that sets `$or` (`foundController.js` 130-135,
`lostController.js` 131-136, `categoryController.js` 26-31). -/
def addTextCondition (query : Option String) (f : Filter) : Filter :=
  if truthy query then { f with or := query } else f

/-- The conditional `if(categoryId)` (`foundController.js` 137-139). -/
def addCategoryCondition (categoryId : Option String) (f : Filter) : Filter :=
  if truthy categoryId then { f with categoryId := categoryId } else f

/-- The query object built by a search handler (`foundController.js` 120-139). -/
def searchFilter (newDate : String → JsDate) (q : SearchQuery) : Filter :=
  let filter : Filter := {}
  let filter := addDateBounds newDate q.dateFrom q.dateTo filter
  let filter := addTextCondition q.query filter
  addCategoryCondition q.categoryId filter

/-- The sort direction (`foundController.js` 141-146): 1 ascending, -1 descending. -/
def sortDirection (sort : Option String) : Int :=
  if sort = some "asc" then 1 else -1

/-- The statement `!page ? page = 0 : page = page - 1` (`foundController.js` 148). -/
def pageIndex : PageParam → Int
  | .absent => 0
  | .empty => 0
  | .numeric n => n - 1

/-- The constant `itemsPerPage`. -/
def itemsPerPage : Nat := 20

/-- The stage `.sort({createdAt: dir})` of the store. -/
def sortByCreatedAt (dir : Int) (docs : List Item) : List Item :=
  if dir = 1 then docs.insertionSort (fun a b => a.createdAt ≤ b.createdAt)
  else docs.insertionSort (fun a b => b.createdAt ≤ a.createdAt)

/-- The query `Model.find(filter).sort({createdAt: dir}).skip(skip).limit(limit)`. -/
def findSorted (docs : List Item) (f : Filter) (dir : Int) (skip : Int) (limit : Nat) :
    Except Fault (List Item) :=
  match find docs f with
  | .error e => .error e
  | .ok matching =>
    if skip < 0 then .error Fault.negativeSkip
    else .ok (((sortByCreatedAt dir matching).drop skip.toNat).take limit)

/-- The `category` object of a listed item. -/
structure CategoryView where
  id : String
  name : String
  deriving DecidableEq, Repr

/-- One element of `foundItems` / `lostItems` in a search response. -/
structure ListedItem where
  id : String
  name : String
  description : String
  userId : String
  category : CategoryView
  images : List String
  eventDate : Int
  createdAt : Int
  updatedAt : Int
  deriving DecidableEq, Repr

/-- The stage `.populate('categoryId')` for one document: the referenced category, or
`none` (JavaScript `null`) when there is none. -/
def populateCategory (cats : List Category) (item : Item) : Option Category :=
  cats.find? (fun c => c.id == item.categoryId)

/-- The callback of `foundItems.map` (`foundController.js` 152-167). -/
def listItem (cats : List Category) (item : Item) : Except Fault ListedItem :=
  match populateCategory cats item with
  | none => .error Fault.nullDeref
  | some c =>
    .ok { id := item.id, name := item.name, description := item.description,
          userId := item.userId, category := { id := c.id, name := c.name },
          images := item.images, eventDate := item.eventDate,
          createdAt := item.createdAt, updatedAt := item.updatedAt }

/-- The expression `Math.ceil(a / b)` on natural numbers (for `b = 20` the double
quotient rounds to the same ceiling as the exact one for every count below 2^53). -/
def mathCeilDiv (a b : Nat) : Nat :=
  if a % b = 0 then a / b else a / b + 1

/-- The body of a successful search response. -/
structure SearchBody where
  totalItems : Nat
  totalPages : Nat
  page : Int
  items : List ListedItem
  deriving DecidableEq, Repr

/-- The `try` block shared by `foundItemSearch` and `lostItemSearch`. -/
def searchSteps (newDate : String → JsDate) (cats : List Category) (docs : List Item)
    (q : SearchQuery) : Except Fault SearchBody := do
  let filter := searchFilter newDate q
  let sort := sortDirection q.sort
  let page := pageIndex q.page
  let found ← findSorted docs filter sort (itemsPerPage * page) itemsPerPage
  let items ← found.mapM (listItem cats)
  let totalItems ← countDocuments docs filter
  let totalPages := mathCeilDiv totalItems itemsPerPage
  pure { totalItems := totalItems, totalPages := totalPages, page := page + 1, items := items }

/-- The handler body shared by `foundItemSearch` and `lostItemSearch`, which differ in
the collection searched and in the name of the date field. -/
def itemSearch (newDate : String → JsDate) (cats : List Category) (docs : List Item)
    (q : SearchQuery) : Reply SearchBody :=
  match searchSteps newDate cats docs q with
  | .ok body => Reply.json 200 body
  | .error e => Reply.unexpected e

/-- The handler `foundItemSearch` (`foundController.js` 114-182). -/
def foundItemSearch (newDate : String → JsDate) (db : Store) (q : SearchQuery) :
    Reply SearchBody :=
  itemSearch newDate db.categories db.foundItems q

/-- The handler `lostItemSearch` (`lostController.js` 115-183). -/
def lostItemSearch (newDate : String → JsDate) (db : Store) (q : SearchQuery) :
    Reply SearchBody :=
  itemSearch newDate db.categories db.lostItems q

/-! ## `getCategories` -/

/-- The object `req.query` of a category request. -/
structure CategoryQuery where
  query : Option String := none
  dateFrom : Option String := none
  dateTo : Option String := none
  deriving DecidableEq, Repr

/-- One element of the category response. -/
structure CategoryRecord where
  id : String
  name : String
  lostItemsCount : Nat
  foundItemsCount : Nat
  deriving DecidableEq, Repr

/-- What one callback of `categories.map` holds when it first suspends: its category
and its two private copies of the shared object. -/
structure CountTask where
  categ : Category
  lostOptions : Filter
  foundOptions : Filter
  deriving DecidableEq, Repr

/-- The synchronous part of one callback (`categoryController.js` 36-51), run on the
shared object `options`: it writes `categoryId` into the shared object, then copies it
twice. It returns the shared object as it leaves it. -/
def startTask (newDate : String → JsDate) (q : CategoryQuery) (options : Filter)
    (categ : Category) : Filter × CountTask :=
  let options := { options with categoryId := some categ.id }
  let lostOptions := addDateBounds newDate q.dateFrom q.dateTo options
  let foundOptions := addDateBounds newDate q.dateFrom q.dateTo options
  (options, { categ := categ, lostOptions := lostOptions, foundOptions := foundOptions })

/-- The call `categories.map(async ...)`: each callback runs up to its first `await`
before the next one starts, all on the same shared object. -/
def startTasks (newDate : String → JsDate) (q : CategoryQuery) :
    Filter → List Category → List CountTask
  | _, [] => []
  | options, categ :: rest =>
    let step := startTask newDate q options categ
    step.2 :: startTasks newDate q step.1 rest

/-- The rest of one callback (`categoryController.js` 53-61). -/
def finishTask (db : Store) (t : CountTask) : Except Fault CategoryRecord := do
  let lostItemsCount ← countDocuments db.lostItems t.lostOptions
  let foundItemsCount ← countDocuments db.foundItems t.foundOptions
  pure { id := t.categ.id, name := t.categ.name,
         lostItemsCount := lostItemsCount, foundItemsCount := foundItemsCount }

/-- The shared object `options` before the categories are read
(`categoryController.js` 23-31). -/
def categoryOptions (q : CategoryQuery) : Filter :=
  let options : Filter := {}
  addTextCondition q.query options

/-- The handler `getCategories` (`categoryController.js` 21-70). -/
def getCategories (newDate : String → JsDate) (db : Store) (q : CategoryQuery) :
    Reply (List CategoryRecord) :=
  let options := categoryOptions q
  let categories := db.categories
  match (startTasks newDate q options categories).mapM (finishTask db) with
  | .ok records => Reply.json 200 records
  | .error e => Reply.unexpected e

/-- The rest of one callback (`categoryController.js` 53-61) over the two count operations
of the store, which may fail for reasons of their own. -/
def finishTaskWith (countLost countFound : Filter → Except Fault Nat) (t : CountTask) :
    Except Fault CategoryRecord := do
  let lostItemsCount ← countLost t.lostOptions
  let foundItemsCount ← countFound t.foundOptions
  pure { id := t.categ.id, name := t.categ.name,
         lostItemsCount := lostItemsCount, foundItemsCount := foundItemsCount }

/-- The handler `getCategories` over the category list and the two count operations of the
store; `Promise.all` rejects as soon as one callback does. -/
def getCategoriesWith (newDate : String → JsDate) (categories : List Category)
    (countLost countFound : Filter → Except Fault Nat) (q : CategoryQuery) :
    Reply (List CategoryRecord) :=
  let options := categoryOptions q
  match (startTasks newDate q options categories).mapM (finishTaskWith countLost countFound) with
  | .ok records => Reply.json 200 records
  | .error e => Reply.unexpected e

/-! ## `foundItemGetById` / `lostItemGetById` -/

/-- The call `Model.findById(id)`: the document, or `none` (JavaScript `null`). -/
def findById (docs : List Item) (id : String) : Option Item :=
  docs.find? (fun d => d.id == id)

/-- The stage `.populate('userId')` for one document. -/
def populateUser (users : List User) (item : Item) : Option User :=
  users.find? (fun u => u.id == item.userId)

/-- The `user` object of the detail view. -/
structure UserView where
  id : String
  name : String
  surname : String
  email : String
  telegram : Option String
  phone : Option String
  deriving DecidableEq, Repr

/-- The object `fullInfo` of the detail view. -/
structure FullInfo where
  id : String
  name : String
  description : String
  images : List String
  user : UserView
  category : CategoryView
  eventDate : Int
  createdAt : Int
  updatedAt : Int
  deriving DecidableEq, Repr

/-- The handler body shared by `foundItemGetById` and `lostItemGetById`
(`foundController.js` 184-215): there is no test of the document before its fields are
read. -/
def itemGetById (users : List User) (cats : List Category) (docs : List Item) (id : String) :
    Reply FullInfo :=
  match findById docs id with
  | none => Reply.unexpected Fault.nullDeref
  | some item =>
    match populateUser users item with
    | none => Reply.unexpected Fault.nullDeref
    | some u =>
      match populateCategory cats item with
      | none => Reply.unexpected Fault.nullDeref
      | some c =>
        Reply.json 200
          { id := item.id, name := item.name, description := item.description,
            images := item.images,
            user := { id := u.id, name := u.name, surname := u.surname, email := u.email,
                      telegram := u.telegram, phone := u.phone },
            category := { id := c.id, name := c.name },
            eventDate := item.eventDate, createdAt := item.createdAt,
            updatedAt := item.updatedAt }

/-- The handler `foundItemGetById` (`foundController.js` 184-215). -/
def foundItemGetById (db : Store) (id : String) : Reply FullInfo :=
  itemGetById db.users db.categories db.foundItems id

/-- The handler `lostItemGetById` (`lostController.js` 185-216). -/
def lostItemGetById (db : Store) (id : String) : Reply FullInfo :=
  itemGetById db.users db.categories db.lostItems id

/-! ## Update and delete

A handler that changes the store or touches image files returns, with its reply, the
collection as it leaves it and the trace of its effects in the order in which it requests
them. -/

/-- The update document handed to `findByIdAndUpdate` (`foundController.js` 59-65). -/
structure UpdateDoc where
  name : String
  description : String
  categoryId : String
  images : List String
  eventDate : JsDate
  deriving DecidableEq, Repr

/-- One effect requested by a handler. -/
inductive Effect where
  /-- The call `deleteImage(imageName)`: the file `./public/<imageName>` is to be removed. -/
  | deleteImage (imageName : String)
  /-- The store has accepted `findByIdAndUpdate(id, doc)`. -/
  | storeUpdate (id : String) (doc : UpdateDoc)
  /-- The store has accepted `findByIdAndDelete(id)`. -/
  | storeDelete (id : String)
  /-- The store has accepted the `save()` of a new document with this id. -/
  | storeInsert (id : String)
  deriving DecidableEq, Repr

/-- What a mutating handler leaves behind. -/
structure Outcome (β : Type) where
  reply : Reply β
  docs : List Item
  trace : List Effect
  deriving Repr

/-- The characters that `String.prototype.trim` removes: the white space and line
terminator code points of ECMAScript. -/
def jsWhitespace (c : Char) : Bool :=
  c.toNat ∈ [9, 10, 11, 12, 13, 32, 160, 5760, 8192, 8193, 8194, 8195, 8196, 8197, 8198, 8199,
    8200, 8201, 8202, 8232, 8233, 8239, 8287, 12288, 65279]

/-- The method `String.prototype.trim`. -/
def jsTrim (s : String) : String :=
  String.mk (((s.toList.dropWhile jsWhitespace).reverse.dropWhile jsWhitespace).reverse)

/-- The cast of an update document by the schema (`models/LostItem.js`; for found items
modelled from the spec, whose data model has `name` and `description` trimmed): the
`trim` option of `name` and `description` is a setter, which runs on updates, an
`Invalid Date` on the date path is a `CastError`, and the `timestamps` option sets
`updatedAt`. Validators do not run on `findByIdAndUpdate`. -/
def castUpdate (doc : UpdateDoc) (now : Int) (old : Item) : Except Fault Item :=
  match doc.eventDate with
  | none => .error Fault.castDate
  | some t =>
    .ok { old with name := jsTrim doc.name, description := jsTrim doc.description,
                   categoryId := doc.categoryId, images := doc.images, eventDate := t,
                   updatedAt := now }

/-- Replace the first document with the given id. -/
def replaceById (id : String) (new : Item) : List Item → List Item
  | [] => []
  | d :: ds => if d.id == id then new :: ds else d :: replaceById id new ds

/-- The call `Model.findByIdAndUpdate(id, doc, {new: true})` at time `now`: the collection
after the update and the updated document, `none` when no document has the id. -/
def findByIdAndUpdate (docs : List Item) (id : String) (doc : UpdateDoc) (now : Int) :
    Except Fault (List Item × Option Item) :=
  match findById docs id with
  | none =>
    match doc.eventDate with
    | none => .error Fault.castDate
    | some _ => .ok (docs, none)
  | some old =>
    match castUpdate doc now old with
    | .error e => .error e
    | .ok new => .ok (replaceById id new docs, some new)

/-- The call `Model.findByIdAndDelete(id)`: the collection without the first document that
has the id. -/
def findByIdAndDelete (docs : List Item) (id : String) : List Item :=
  docs.eraseP (fun d => d.id == id)

/-- The parts of an update request that the handler reads: `req.params.id`, `req.user.id`,
the `filename` of each element of `req.files`, and the four fields of `req.body`. -/
structure UpdateRequest where
  id : String
  userId : String
  files : List String := []
  name : Option String := none
  description : Option String := none
  categoryId : Option String := none
  eventDate : Option String := none
  deriving DecidableEq, Repr

/-- The expression `value ? value : previous` on a raw string. -/
def orPrevious (value : Option String) (previous : String) : String :=
  match value with
  | some s => if s != "" then s else previous
  | none => previous

/-- The expression `foundDate ? new Date(foundDate) : foundItem.foundDate`. -/
def dateOrPrevious (newDate : String → JsDate) (value : Option String) (previous : Int) :
    JsDate :=
  match value with
  | some s => if s != "" then newDate s else some previous
  | none => some previous

/-- The update document of a request (`foundController.js` 59-65). -/
def updateDoc (newDate : String → JsDate) (req : UpdateRequest) (item : Item)
    (images : List String) : UpdateDoc :=
  { name := orPrevious req.name item.name,
    description := orPrevious req.description item.description,
    categoryId := orPrevious req.categoryId item.categoryId,
    images := images,
    eventDate := dateOrPrevious newDate req.eventDate item.eventDate }

/-- The handler body shared by `foundItemUpdate` and `lostItemUpdate` (`foundController.js`
35-88), which differ in the collection, in the image directory `dir` and in the text of
the 404 message. -/
def itemUpdate (newDate : String → JsDate) (dir notFound : String) (now : Int)
    (docs : List Item) (req : UpdateRequest) : Outcome Item :=
  match findById docs req.id with
  | none => { reply := Reply.message 404 notFound, docs := docs, trace := [] }
  | some item =>
    if item.userId != req.userId then
      { reply := Reply.message 400 "Access denied.", docs := docs,
        trace := req.files.map (fun f => Effect.deleteImage (dir ++ f)) }
    else
      let images := req.files.map (fun f => dir ++ f)
      if images.length == 0 then
        -- `images = foundItem.images` assigns to the `const images`
        { reply := Reply.unexpected Fault.constAssign, docs := docs, trace := [] }
      else
        let released := item.images.map Effect.deleteImage
        let doc := updateDoc newDate req item images
        match findByIdAndUpdate docs item.id doc now with
        | .error e => { reply := Reply.unexpected e, docs := docs, trace := released }
        | .ok (docs2, none) =>
          { reply := Reply.unexpected Fault.nullDeref, docs := docs2,
            trace := released ++ [Effect.storeUpdate item.id doc] }
        | .ok (docs2, some updated) =>
          { reply := Reply.json 200 updated, docs := docs2,
            trace := released ++ [Effect.storeUpdate item.id doc] }

/-- What an update or delete handler leaves behind, with the whole store. -/
structure StoreOutcome (β : Type) where
  reply : Reply β
  db : Store
  trace : List Effect
  deriving Repr

/-- The handler `foundItemUpdate` (`foundController.js` 35-88). -/
def foundItemUpdate (newDate : String → JsDate) (now : Int) (db : Store)
    (req : UpdateRequest) : StoreOutcome Item :=
  let out := itemUpdate newDate "img/found/" "Found item post with this id does not exist."
    now db.foundItems req
  { reply := out.reply, db := { db with foundItems := out.docs }, trace := out.trace }

/-- The handler `lostItemUpdate` (`lostController.js` 36-89). -/
def lostItemUpdate (newDate : String → JsDate) (now : Int) (db : Store)
    (req : UpdateRequest) : StoreOutcome Item :=
  let out := itemUpdate newDate "img/lost/" "Lost item post with this id does not exist."
    now db.lostItems req
  { reply := out.reply, db := { db with lostItems := out.docs }, trace := out.trace }

/-- The parts of a delete request that the handler reads: `req.params.id` and
`req.user.id`. -/
structure DeleteRequest where
  id : String
  userId : String
  deriving DecidableEq, Repr

/-- The handler body shared by `foundItemDelete` and `lostItemDelete` (`foundController.js`
90-112), which differ in the collection and in the texts of the messages. -/
def itemDelete (deleted notFound : String) (docs : List Item) (req : DeleteRequest) :
    Outcome Unit :=
  match findById docs req.id with
  | none => { reply := Reply.message 400 notFound, docs := docs, trace := [] }
  | some item =>
    if item.userId != req.userId then
      { reply := Reply.message 400 "Access denied.", docs := docs, trace := [] }
    else
      { reply := Reply.message 200 deleted,
        docs := findByIdAndDelete docs req.id,
        trace := item.images.map Effect.deleteImage ++ [Effect.storeDelete req.id] }

/-- The handler `foundItemDelete` (`foundController.js` 90-112). -/
def foundItemDelete (db : Store) (req : DeleteRequest) : StoreOutcome Unit :=
  let out := itemDelete "Found item post deleted successfully."
    "Found item post with this id does not exist." db.foundItems req
  { reply := out.reply, db := { db with foundItems := out.docs }, trace := out.trace }

/-- The handler `lostItemDelete` (`lostController.js` 91-113). -/
def lostItemDelete (db : Store) (req : DeleteRequest) : StoreOutcome Unit :=
  let out := itemDelete "Lost item post deleted successfully."
    "Lost item post with this id does not exist." db.lostItems req
  { reply := out.reply, db := { db with lostItems := out.docs }, trace := out.trace }

/-! ## `validateFoundAdd` / `validateLostAdd` -/

/-- The fields of `req.body` that the add middleware reads; `eventDate` is `foundDate`,
respectively `lostDate`. -/
structure AddBody where
  name : Option String := none
  description : Option String := none
  categoryId : Option String := none
  eventDate : Option String := none
  deriving DecidableEq, Repr

/-- What a middleware does: it calls `next()` or it answers itself. -/
inductive Middleware (ε : Type) where
  /-- The call `next()`. -/
  | next
  /-- The middleware answers; the rest of the chain does not run. -/
  | respond (reply : Reply ε)
  deriving DecidableEq, Repr

/-- The test `!value || value.length == 0` on a raw string. -/
def missing (value : Option String) : Bool :=
  !truthy value || (match value with | some s => s.length == 0 | none => true)

/-- The object `errors` as the list of its entries, in the order in which the keys are set. -/
def addErrors (dateKey dateMessage : String) (body : AddBody) : List (String × String) :=
  let errors : List (String × String) := []
  let errors := if missing body.name then errors ++ [("name", "Name is required.")] else errors
  let errors := if missing body.categoryId then
    errors ++ [("categoryId", "Category ID is required.")] else errors
  if missing body.eventDate then errors ++ [(dateKey, dateMessage)] else errors

/-- The middleware body shared by `validateFoundAdd` and `validateLostAdd`. -/
def validateAdd (dateKey dateMessage : String) (body : AddBody) :
    Middleware (List (String × String)) :=
  let errors := addErrors dateKey dateMessage body
  if errors.length > 0 then Middleware.respond (Reply.json 400 errors) else Middleware.next

/-- The middleware `validateFoundAdd` (`middlewares/foundMiddleware.js`). -/
def validateFoundAdd (body : AddBody) : Middleware (List (String × String)) :=
  validateAdd "foundDate" "Found date is required." body

/-- The middleware `validateLostAdd` (`middlewares/lostMiddleware.js`). -/
def validateLostAdd (body : AddBody) : Middleware (List (String × String)) :=
  validateAdd "lostDate" "Lost date is required." body

/-- A route of two stages, a middleware and a handler: the handler runs only when the
middleware calls `next()`. -/
def route {ε ρ : Type} (m : Middleware ε) (handler : Unit → ρ) : Sum (Reply ε) ρ :=
  match m with
  | Middleware.next => Sum.inr (handler ())
  | Middleware.respond r => Sum.inl r

/-! ## `foundItemAdd` / `lostItemAdd` -/

/-- The parts of an add request: `req.user.id`, the `filename` of each element of
`req.files`, the fields of `req.body` that the handlers read, and every other field the
client has put in the body (`extra`, as key and value), which no handler reads. -/
structure AddRequest where
  userId : String
  files : List String := []
  body : AddBody := {}
  extra : List (String × String) := []
  deriving DecidableEq, Repr

/-- The body of a 200 answer to an add request; a key whose value is `undefined` is left
out of the JSON text and is `none` here. -/
structure AddResponse where
  id : String
  name : String
  description : Option String
  userId : Option String
  categoryId : String
  images : List String
  eventDate : Int
  createdAt : Int
  updatedAt : Int
  deriving DecidableEq, Repr

/-- The call `new Model(doc).save()` at time `now`, the store giving the id `newId`
(`models/LostItem.js`; for found items modelled from the spec): `name` is required and,
once trimmed by its setter, must not be empty, `categoryId` and the date are required, an
`Invalid Date` does not cast, `description` is trimmed, and the `timestamps` option sets
`createdAt` and `updatedAt`. -/
def saveItem (newId : String) (now : Int) (name : Option String) (description : String)
    (categoryId : Option String) (userId : String) (images : List String) (date : JsDate) :
    Except Fault Item :=
  match name, categoryId, date with
  | some n, some c, some t =>
    if jsTrim n = "" ∨ c = "" then .error Fault.validation
    else .ok { id := newId, name := jsTrim n, description := jsTrim description,
               categoryId := c, userId := userId, images := images, eventDate := t,
               createdAt := now, updatedAt := now }
  | _, _, _ => .error Fault.validation

/-- The expression `new Date(foundDate)` on a raw body field: `new Date(undefined)` is an
`Invalid Date`. -/
def dateOfField (newDate : String → JsDate) (value : Option String) : JsDate :=
  match value with
  | some s => newDate s
  | none => none

/-- The handler `foundItemAdd` (`foundController.js` 5-33). -/
def foundItemAdd (newDate : String → JsDate) (newId : String) (now : Int) (db : Store)
    (req : AddRequest) : StoreOutcome AddResponse :=
  let images := req.files.map (fun f => "img/found/" ++ f)
  match saveItem newId now req.body.name (orPrevious req.body.description "")
      req.body.categoryId req.userId images (dateOfField newDate req.body.eventDate) with
  | .error e => { reply := Reply.unexpected e, db := db, trace := [] }
  | .ok foundItem =>
    { reply := Reply.json 200
        { id := foundItem.id, name := foundItem.name, description := none,
          userId := some foundItem.userId, categoryId := foundItem.categoryId,
          images := foundItem.images, eventDate := foundItem.eventDate,
          createdAt := foundItem.createdAt, updatedAt := foundItem.updatedAt },
      db := { db with foundItems := db.foundItems ++ [foundItem] },
      trace := [Effect.storeInsert foundItem.id] }

/-- The handler `lostItemAdd` (`lostController.js` 5-34): the answer reads `lostItem.user`,
a property that the document does not have, for its key `userId`. -/
def lostItemAdd (newDate : String → JsDate) (newId : String) (now : Int) (db : Store)
    (req : AddRequest) : StoreOutcome AddResponse :=
  let images := req.files.map (fun f => "img/lost/" ++ f)
  match saveItem newId now req.body.name (orPrevious req.body.description "")
      req.body.categoryId req.userId images (dateOfField newDate req.body.eventDate) with
  | .error e => { reply := Reply.unexpected e, db := db, trace := [] }
  | .ok lostItem =>
    { reply := Reply.json 200
        { id := lostItem.id, name := lostItem.name, description := some lostItem.description,
          userId := none, categoryId := lostItem.categoryId,
          images := lostItem.images, eventDate := lostItem.eventDate,
          createdAt := lostItem.createdAt, updatedAt := lostItem.updatedAt },
      db := { db with lostItems := db.lostItems ++ [lostItem] },
      trace := [Effect.storeInsert lostItem.id] }

/-! ## `createCategories` -/

/-- The function `createCategories` (`categoryController.js` 6-19); `newId i` is the id that
the store gives to the document number `i` of `insertMany`. -/
def createCategories (newId : Nat → String) (stored : List Category) : List Category :=
  let categories := stored
  if categories.length == 0 then
    let categories := ["Electronics", "Documents", "Clothing and accessories"]
    stored ++ categories.enum.map (fun (i, name) => { id := newId i, name := name })
  else stored

/-! ## The upload storage (`utils/multer.js`) and `deleteImage` -/

/-- The method `String.prototype.includes`. -/
def includes (s part : String) : Bool :=
  decide (part.toList <:+: s.toList)

/-- The callback `destination` of the disk storage (`utils/multer.js` 5-12), on
`req.originalUrl`: the path and the query string of the request. -/
def destination (originalUrl : String) : String :=
  if includes originalUrl "found" then "./public/img/found/" else "./public/img/lost/"

/-- The file that `deleteImage(imageName)` removes, and that the static server reads for the
recorded image (`utils/deleteImage.js` 4). -/
def imagePath (imageName : String) : String :=
  "./public/" ++ imageName

/-! ## The forgot-password flow (`controllers/authorizationConroller.js`) -/

/-- An `AuthCode` document (`models/AuthCode.js`). -/
structure AuthCode where
  email : String
  code : String
  createdAt : Int
  deriving DecidableEq, Repr

/-- The two collections that the flow reads and writes. -/
structure AuthState where
  users : List User := []
  codes : List AuthCode := []
  deriving DecidableEq, Repr

/-- The function `checkUserExist` (`utils/checkUserExist.js`). -/
def checkUserExist (users : List User) (email : String) : Bool :=
  (users.find? (fun u => u.email == email)).isSome

/-- The handler `forgotPasswordSendCode` (lines 121-141); `code` is the text of the random
number, the mail is sent by a helper that is not among the sources. -/
def forgotPasswordSendCode (code : String) (now : Int) (st : AuthState) (email : String) :
    Reply Unit × AuthState :=
  if checkUserExist st.users email then
    (Reply.message 200 "Verification sent.",
     { st with codes := st.codes ++ [{ email := email, code := code, createdAt := now }] })
  else (Reply.message 400 "User with this email does not exist.", st)

/-- The handler `forgotPasswordVerifyCode` (lines 143-179) at time `now`. -/
def forgotPasswordVerifyCode (now : Int) (st : AuthState) (email code : String) :
    Reply Unit × AuthState :=
  if !checkUserExist st.users email then
    (Reply.message 400 "User with this email does not exist.", st)
  else
    match st.codes.find? (fun a => a.email == email && a.code == code) with
    | none => (Reply.message 400 "Verification code is wrong.", st)
    | some authCode =>
      let expirationTime : Int := 5 * 60 * 1000
      if now - authCode.createdAt > expirationTime then
        (Reply.message 400 "Verification code is expired.", st)
      else
        (Reply.message 200 "Verification done.",
         { st with codes := st.codes.eraseP (fun a => a.email == email && a.code == code) })

/-- The call `User.findByIdAndUpdate(id, {password})`. -/
def setPassword (id password : String) : List User → List User
  | [] => []
  | u :: us =>
    if u.id == id then { u with password := password } :: us else u :: setPassword id password us

/-- The handler `forgotPasswordChangePassword` (lines 181-210); `hash` is the salted hash
of the password. -/
def forgotPasswordChangePassword (hash : String → String) (st : AuthState)
    (email newPassword : String) : Reply Unit × AuthState :=
  match st.users.find? (fun u => u.email == email) with
  | none => (Reply.message 400 "User with this email does not exist.", st)
  | some user =>
    let hashedPassword := hash newPassword
    (Reply.message 200 "Password changed successfully.",
     { st with users := setPassword user.id hashedPassword st.users })

/-- A request of the forgot-password flow, after the validation middleware of its route. -/
inductive AuthRequest where
  /-- `POST /api/forgotpassword/sendcode`, with the code that the handler draws. -/
  | sendCode (email code : String)
  /-- `POST /api/forgotpassword/verifycode`. -/
  | verifyCode (email code : String)
  /-- `PUT /api/forgotpassword/changepassword`. -/
  | changePassword (email newPassword : String)
  deriving DecidableEq, Repr

/-- One request at time `now`. -/
def authStep (hash : String → String) (st : AuthState) (now : Int) (r : AuthRequest) :
    Reply Unit × AuthState :=
  match r with
  | .sendCode email code => forgotPasswordSendCode code now st email
  | .verifyCode email code => forgotPasswordVerifyCode now st email code
  | .changePassword email newPassword => forgotPasswordChangePassword hash st email newPassword

/-- A sequence of requests, each with its time, run in order; the state at the end. -/
def runAuth (hash : String → String) : AuthState → List (Int × AuthRequest) → AuthState
  | st, [] => st
  | st, (now, r) :: rest => runAuth hash (authStep hash st now r).2 rest

/-! ## The two search handlers, each transcribed from its own controller

In the namespace `Source` the documents keep the field names `lostDate` and `foundDate`,
and each handler is written out from its own file, with nothing shared between the two but
the operators of the store. -/

namespace Source

/-- A `LostItem` document with the field names of the source (`models/LostItem.js`). -/
structure LostItem where
  id : String
  name : String
  description : String
  categoryId : String
  userId : String
  images : List String
  lostDate : Int
  createdAt : Int
  updatedAt : Int
  deriving DecidableEq, Repr

/-- The query object `filter` of `lostItemSearch`: the keys `lostDate`, `$or` and
`categoryId`. -/
structure LostFilter where
  lostDate : Option DateRange := none
  or : Option String := none
  categoryId : Option String := none
  deriving DecidableEq, Repr

/-- The query object built by `lostItemSearch` (`lostController.js` 121-140). -/
def lostFilter (newDate : String → JsDate) (q : SearchQuery) : LostFilter :=
  let filter : LostFilter := {}
  let filter :=
    match q.dateFrom with
    | some dateFrom =>
      if dateFrom.length > 0 then
        { filter with
          lostDate := some { (filter.lostDate.getD {}) with gte := some (newDate dateFrom) } }
      else filter
    | none => filter
  let filter :=
    match q.dateTo with
    | some dateTo =>
      if dateTo.length > 0 then
        { filter with
          lostDate := some { (filter.lostDate.getD {}) with lte := some (newDate dateTo) } }
      else filter
    | none => filter
  let filter := if truthy q.query then { filter with or := q.query } else filter
  if truthy q.categoryId then { filter with categoryId := q.categoryId } else filter

/-- A `LostItem` document matches the query object. -/
def LostFilter.matches (f : LostFilter) (d : LostItem) : Bool :=
  (match f.lostDate with
    | none => true
    | some r => r.holds d.lostDate) &&
  (match f.or with
    | none => true
    | some p => regexTest p d.name || regexTest p d.description) &&
  (match f.categoryId with
    | none => true
    | some c => d.categoryId == c)

/-- The fault with which a query of `LostItem` on this object fails, if any. -/
def LostFilter.fault (f : LostFilter) : Option Fault :=
  if (match f.lostDate with | none => false | some r => r.invalid) then some Fault.castDate
  else match f.or with
    | none => none
    | some p => if (compileRegex p).isSome then none else some Fault.badRegex

/-- The stage `.sort({createdAt: dir})` on `LostItem`. -/
def lostSort (dir : Int) (docs : List LostItem) : List LostItem :=
  if dir = 1 then docs.insertionSort (fun a b => a.createdAt ≤ b.createdAt)
  else docs.insertionSort (fun a b => b.createdAt ≤ a.createdAt)

/-- The query `LostItem.find(filter).sort(...).skip(skip).limit(limit)`. -/
def lostFindSorted (docs : List LostItem) (f : LostFilter) (dir : Int) (skip : Int)
    (limit : Nat) : Except Fault (List LostItem) :=
  match f.fault with
  | some e => .error e
  | none =>
    if skip < 0 then .error Fault.negativeSkip
    else .ok (((lostSort dir (docs.filter f.matches)).drop skip.toNat).take limit)

/-- The call `LostItem.countDocuments(filter)`. -/
def lostCount (docs : List LostItem) (f : LostFilter) : Except Fault Nat :=
  match f.fault with
  | some e => .error e
  | none => .ok (docs.filter f.matches).length

/-- One element of `lostItems` in the answer of `lostItemSearch`. -/
structure LostListed where
  id : String
  name : String
  description : String
  userId : String
  category : CategoryView
  images : List String
  lostDate : Int
  createdAt : Int
  updatedAt : Int
  deriving DecidableEq, Repr

/-- The callback of `lostItems.map` (`lostController.js` 153-168), after
`.populate('categoryId')`. -/
def lostListItem (cats : List Category) (item : LostItem) : Except Fault LostListed :=
  match cats.find? (fun c => c.id == item.categoryId) with
  | none => .error Fault.nullDeref
  | some c =>
    .ok { id := item.id, name := item.name, description := item.description,
          userId := item.userId, category := { id := c.id, name := c.name },
          images := item.images, lostDate := item.lostDate,
          createdAt := item.createdAt, updatedAt := item.updatedAt }

/-- The body of a successful answer of `lostItemSearch`. -/
structure LostSearchBody where
  totalItems : Nat
  totalPages : Nat
  page : Int
  lostItems : List LostListed
  deriving DecidableEq, Repr

/-- The handler `lostItemSearch` (`lostController.js` 115-183), on the categories and the
`LostItem` collection. -/
def lostItemSearch (newDate : String → JsDate) (cats : List Category) (docs : List LostItem)
    (q : SearchQuery) : Reply LostSearchBody :=
  let filter := lostFilter newDate q
  let sort := sortDirection q.sort
  let page := pageIndex q.page
  match lostFindSorted docs filter sort (itemsPerPage * page) itemsPerPage with
  | .error e => Reply.unexpected e
  | .ok found =>
    match found.mapM (lostListItem cats) with
    | .error e => Reply.unexpected e
    | .ok lostItems =>
      match lostCount docs filter with
      | .error e => Reply.unexpected e
      | .ok totalItems =>
        let totalPages := mathCeilDiv totalItems itemsPerPage
        Reply.json 200
          { totalItems := totalItems, totalPages := totalPages, page := page + 1,
            lostItems := lostItems }

/-- Modelled from the spec: a `FoundItem` document with the field names that
`foundController.js` reads; `models/FoundItem.js` is not among the sources. -/
structure FoundItem where
  id : String
  name : String
  description : String
  categoryId : String
  userId : String
  images : List String
  foundDate : Int
  createdAt : Int
  updatedAt : Int
  deriving DecidableEq, Repr

/-- The query object `filter` of `foundItemSearch`: the keys `foundDate`, `$or` and
`categoryId`. -/
structure FoundFilter where
  foundDate : Option DateRange := none
  or : Option String := none
  categoryId : Option String := none
  deriving DecidableEq, Repr

/-- The query object built by `foundItemSearch` (`foundController.js` 120-139). -/
def foundFilter (newDate : String → JsDate) (q : SearchQuery) : FoundFilter :=
  let filter : FoundFilter := {}
  let filter :=
    match q.dateFrom with
    | some dateFrom =>
      if dateFrom.length > 0 then
        { filter with
          foundDate := some { (filter.foundDate.getD {}) with gte := some (newDate dateFrom) } }
      else filter
    | none => filter
  let filter :=
    match q.dateTo with
    | some dateTo =>
      if dateTo.length > 0 then
        { filter with
          foundDate := some { (filter.foundDate.getD {}) with lte := some (newDate dateTo) } }
      else filter
    | none => filter
  let filter := if truthy q.query then { filter with or := q.query } else filter
  if truthy q.categoryId then { filter with categoryId := q.categoryId } else filter

/-- A `FoundItem` document matches the query object. -/
def FoundFilter.matches (f : FoundFilter) (d : FoundItem) : Bool :=
  (match f.foundDate with
    | none => true
    | some r => r.holds d.foundDate) &&
  (match f.or with
    | none => true
    | some p => regexTest p d.name || regexTest p d.description) &&
  (match f.categoryId with
    | none => true
    | some c => d.categoryId == c)

/-- The fault with which a query of `FoundItem` on this object fails, if any. -/
def FoundFilter.fault (f : FoundFilter) : Option Fault :=
  if (match f.foundDate with | none => false | some r => r.invalid) then some Fault.castDate
  else match f.or with
    | none => none
    | some p => if (compileRegex p).isSome then none else some Fault.badRegex

/-- The stage `.sort({createdAt: dir})` on `FoundItem`. -/
def foundSort (dir : Int) (docs : List FoundItem) : List FoundItem :=
  if dir = 1 then docs.insertionSort (fun a b => a.createdAt ≤ b.createdAt)
  else docs.insertionSort (fun a b => b.createdAt ≤ a.createdAt)

/-- The query `FoundItem.find(filter).sort(...).skip(skip).limit(limit)`. -/
def foundFindSorted (docs : List FoundItem) (f : FoundFilter) (dir : Int) (skip : Int)
    (limit : Nat) : Except Fault (List FoundItem) :=
  match f.fault with
  | some e => .error e
  | none =>
    if skip < 0 then .error Fault.negativeSkip
    else .ok (((foundSort dir (docs.filter f.matches)).drop skip.toNat).take limit)

/-- The call `FoundItem.countDocuments(filter)`. -/
def foundCount (docs : List FoundItem) (f : FoundFilter) : Except Fault Nat :=
  match f.fault with
  | some e => .error e
  | none => .ok (docs.filter f.matches).length

/-- One element of `foundItems` in the answer of `foundItemSearch`. -/
structure FoundListed where
  id : String
  name : String
  description : String
  userId : String
  category : CategoryView
  images : List String
  foundDate : Int
  createdAt : Int
  updatedAt : Int
  deriving DecidableEq, Repr

/-- The callback of `foundItems.map` (`foundController.js` 152-167), after
`.populate('categoryId')`. -/
def foundListItem (cats : List Category) (item : FoundItem) : Except Fault FoundListed :=
  match cats.find? (fun c => c.id == item.categoryId) with
  | none => .error Fault.nullDeref
  | some c =>
    .ok { id := item.id, name := item.name, description := item.description,
          userId := item.userId, category := { id := c.id, name := c.name },
          images := item.images, foundDate := item.foundDate,
          createdAt := item.createdAt, updatedAt := item.updatedAt }

/-- The body of a successful answer of `foundItemSearch`. -/
structure FoundSearchBody where
  totalItems : Nat
  totalPages : Nat
  page : Int
  foundItems : List FoundListed
  deriving DecidableEq, Repr

/-- The handler `foundItemSearch` (`foundController.js` 114-182), on the categories and the
`FoundItem` collection. -/
def foundItemSearch (newDate : String → JsDate) (cats : List Category) (docs : List FoundItem)
    (q : SearchQuery) : Reply FoundSearchBody :=
  let filter := foundFilter newDate q
  let sort := sortDirection q.sort
  let page := pageIndex q.page
  match foundFindSorted docs filter sort (itemsPerPage * page) itemsPerPage with
  | .error e => Reply.unexpected e
  | .ok found =>
    match found.mapM (foundListItem cats) with
    | .error e => Reply.unexpected e
    | .ok foundItems =>
      match foundCount docs filter with
      | .error e => Reply.unexpected e
      | .ok totalItems =>
        let totalPages := mathCeilDiv totalItems itemsPerPage
        Reply.json 200
          { totalItems := totalItems, totalPages := totalPages, page := page + 1,
            foundItems := foundItems }

/-- The renaming of `lostDate` to `foundDate` in a document. -/
def renameItem (d : LostItem) : FoundItem :=
  { id := d.id, name := d.name, description := d.description, categoryId := d.categoryId,
    userId := d.userId, images := d.images, foundDate := d.lostDate,
    createdAt := d.createdAt, updatedAt := d.updatedAt }

/-- The renaming of `lostDate` to `foundDate` in a listed item. -/
def renameListed (v : LostListed) : FoundListed :=
  { id := v.id, name := v.name, description := v.description, userId := v.userId,
    category := v.category, images := v.images, foundDate := v.lostDate,
    createdAt := v.createdAt, updatedAt := v.updatedAt }

/-- The renaming of the list key `lostItems` to `foundItems`, and of `lostDate` to
`foundDate` in each element, in an answer. -/
def renameReply : Reply LostSearchBody → Reply FoundSearchBody
  | Reply.json status body =>
    Reply.json status
      { totalItems := body.totalItems, totalPages := body.totalPages, page := body.page,
        foundItems := body.lostItems.map renameListed }
  | Reply.message status text => Reply.message status text
  | Reply.unexpected fault => Reply.unexpected fault

/-- A lost document as a document of the model with one date field. -/
def LostItem.toItem (d : LostItem) : Item :=
  { id := d.id, name := d.name, description := d.description, categoryId := d.categoryId,
    userId := d.userId, images := d.images, eventDate := d.lostDate,
    createdAt := d.createdAt, updatedAt := d.updatedAt }

/-- A found document as a document of the model with one date field. -/
def FoundItem.toItem (d : FoundItem) : Item :=
  { id := d.id, name := d.name, description := d.description, categoryId := d.categoryId,
    userId := d.userId, images := d.images, eventDate := d.foundDate,
    createdAt := d.createdAt, updatedAt := d.updatedAt }

/-- A listed lost item as a listed item of the model with one date field. -/
def LostListed.toListed (v : LostListed) : ListedItem :=
  { id := v.id, name := v.name, description := v.description, userId := v.userId,
    category := v.category, images := v.images, eventDate := v.lostDate,
    createdAt := v.createdAt, updatedAt := v.updatedAt }

/-- A listed found item as a listed item of the model with one date field. -/
def FoundListed.toListed (v : FoundListed) : ListedItem :=
  { id := v.id, name := v.name, description := v.description, userId := v.userId,
    category := v.category, images := v.images, eventDate := v.foundDate,
    createdAt := v.createdAt, updatedAt := v.updatedAt }

/-- An answer of `lostItemSearch` as an answer of the model with one date field. -/
def lostReply : Reply LostSearchBody → Reply SearchBody
  | Reply.json status body =>
    Reply.json status
      { totalItems := body.totalItems, totalPages := body.totalPages, page := body.page,
        items := body.lostItems.map LostListed.toListed }
  | Reply.message status text => Reply.message status text
  | Reply.unexpected fault => Reply.unexpected fault

/-- An answer of `foundItemSearch` as an answer of the model with one date field. -/
def foundReply : Reply FoundSearchBody → Reply SearchBody
  | Reply.json status body =>
    Reply.json status
      { totalItems := body.totalItems, totalPages := body.totalPages, page := body.page,
        items := body.foundItems.map FoundListed.toListed }
  | Reply.message status text => Reply.message status text
  | Reply.unexpected fault => Reply.unexpected fault

/-- Twenty-five lost documents, numbered and created in reverse order of storage. -/
def lostScenario : List LostItem :=
  (List.range 25).map (fun i =>
    { id := toString (25 - i), name := "item", description := "", categoryId := "c1",
      userId := "u1", images := [], lostDate := 1000 + (25 - i), createdAt := 25 - i,
      updatedAt := 25 - i })

end Source

/-! ## Specification-side notions -/

/-- Every character with a special meaning in a pattern. -/
def regexSpecial : List Char := '.' :: regexOperators

/-- The query uses no character with a special meaning in a pattern. -/
def plainText (q : String) : Prop := ∀ c ∈ q.toList, c ∉ regexSpecial

instance (q : String) : Decidable (plainText q) := by
  unfold plainText
  infer_instance

/-- The field contains `q`, read as a literal string, as a substring, letter case
ignored: the text condition in the words of the specification. -/
def containsIgnoreCase (field q : String) : Prop :=
  q.toList.map Char.toLower <:+: field.toList.map Char.toLower

instance (field q : String) : Decidable (containsIgnoreCase field q) := by
  unfold containsIgnoreCase
  infer_instance

/-- The raw value is present and is not the empty string. -/
def nonEmpty (v : Option String) : Prop := ∃ s, v = some s ∧ s ≠ ""

instance (v : Option String) : Decidable (nonEmpty v) :=
  match v with
  | none => isFalse (fun h => by obtain ⟨s, hs, _⟩ := h; cases hs)
  | some s =>
    if h : s = "" then isFalse (fun h2 => by obtain ⟨t, ht, hne⟩ := h2; cases ht; exact hne h)
    else isTrue ⟨s, rfl, h⟩

/-- An item named "Leather Wallet". -/
def walletItem : Item :=
  { id := "i1", name := "Leather Wallet", description := "", categoryId := "c1",
    userId := "u1", images := [], eventDate := 1718409600000,
    createdAt := 1718496000000, updatedAt := 1718496000000 }

/-- A `Date` constructor that knows one date string: `2024-06-15` is midnight UTC of
that day, every other string is an `Invalid Date`. -/
def sampleNewDate (s : String) : JsDate :=
  if s = "2024-06-15" then some 1718409600000 else none

/-- A store with one category, one user, and the wallet item in both collections. -/
def sampleStore : Store :=
  { categories := [{ id := "c1", name := "Clothing and accessories" }],
    users := [{ id := "u1", name := "Ann", surname := "Lee", email := "ann@example.org",
                password := "x", telegram := none, phone := none }],
    lostItems := [walletItem],
    foundItems := [walletItem] }

/-- The wallet item as a search lists it. -/
def walletListed : ListedItem :=
  { id := "i1", name := "Leather Wallet", description := "", userId := "u1",
    category := { id := "c1", name := "Clothing and accessories" }, images := [],
    eventDate := 1718409600000, createdAt := 1718496000000, updatedAt := 1718496000000 }

/-- The documents of a collection that a search request selects, before sorting and paging. -/
def matching (newDate : String → JsDate) (q : SearchQuery) (docs : List Item) : List Item :=
  docs.filter (searchFilter newDate q).matches

/-- The documents a search request selects, in the order requested by `sort`. -/
def ordered (newDate : String → JsDate) (q : SearchQuery) (docs : List Item) : List Item :=
  sortByCreatedAt (sortDirection q.sort) (matching newDate q docs)

/-- The listed items are the projections of the given documents, one for one and in order. -/
def Lists (cats : List Category) (docs : List Item) (items : List ListedItem) : Prop :=
  List.Forall₂ (fun d v => listItem cats d = .ok v) docs items

/-- Every selected document refers to a category that exists. -/
def categoriesResolve (newDate : String → JsDate) (q : SearchQuery) (cats : List Category)
    (docs : List Item) : Prop :=
  ∀ d ∈ matching newDate q docs, (populateCategory cats d).isSome = true

instance (newDate : String → JsDate) (q : SearchQuery) (cats : List Category)
    (docs : List Item) : Decidable (categoriesResolve newDate q cats docs) := by
  unfold categoriesResolve
  infer_instance

/-- The number of documents of `docs` created strictly before `x`: the rank of `x` in
creation order, counted from 0. -/
def rankIn (docs : List Item) (x : Item) : Nat :=
  (docs.filter (fun y => decide (y.createdAt < x.createdAt))).length

/-- A found item of scenario A: number `i`, created at time `i`, in one of two categories. -/
def scenarioItem (i : Nat) : Item :=
  { id := toString i, name := "item", description := "",
    categoryId := if i % 2 = 0 then "c1" else "c2", userId := "u1", images := [],
    eventDate := 1000 + i, createdAt := i, updatedAt := i }

/-- The store of scenario A: three categories and the found items 25, 24, ..., 1. -/
def scenarioStore : Store :=
  { categories := [{ id := "c1", name := "Electronics" }, { id := "c2", name := "Documents" },
                   { id := "c3", name := "Clothing and accessories" }],
    foundItems := ((List.range 25).map (fun i => scenarioItem (25 - i))) }

/-- The item satisfies the text condition on the raw `query`: no constraint when the
query is absent or empty. -/
def textAccepts (query : Option String) (item : Item) : Bool :=
  match query with
  | none => true
  | some s => if s = "" then true else textHolds s item

/-- The date `t` is not before the raw bound `dateFrom`: no constraint when the bound is
absent or empty, never satisfied when it is not a date. -/
def notBefore (newDate : String → JsDate) (dateFrom : Option String) (t : Int) : Bool :=
  match dateFrom with
  | none => true
  | some d => if d = "" then true else
    match newDate d with
    | none => false
    | some u => decide (u ≤ t)

/-- The date `t` is not after the raw bound `dateTo`. -/
def notAfter (newDate : String → JsDate) (dateTo : Option String) (t : Int) : Bool :=
  match dateTo with
  | none => true
  | some d => if d = "" then true else
    match newDate d with
    | none => false
    | some u => decide (t ≤ u)

/-- The item counts for category `c` under the request: it belongs to `c`, satisfies the
text condition and its event date lies within the bounds. -/
def countsFor (newDate : String → JsDate) (q : CategoryQuery) (c : Category) (item : Item) :
    Bool :=
  item.categoryId == c.id && textAccepts q.query item &&
    notBefore newDate q.dateFrom item.eventDate && notAfter newDate q.dateTo item.eventDate

/-- The parameters of a category request are well-formed: each non-empty date is a date and
a non-empty query is a pattern of the fragment. -/
def wellFormed (newDate : String → JsDate) (q : CategoryQuery) : Prop :=
  (∀ d, q.dateFrom = some d → d ≠ "" → (newDate d).isSome = true) ∧
  (∀ d, q.dateTo = some d → d ≠ "" → (newDate d).isSome = true) ∧
  (∀ s, q.query = some s → s ≠ "" → (compileRegex s).isSome = true)

/-- A store with a second, empty category, lost and found wallets in the first. -/
def twoCategoryStore : Store :=
  { categories := [{ id := "c1", name := "Clothing and accessories" },
                   { id := "c2", name := "Documents" }],
    lostItems := [walletItem],
    foundItems := [walletItem, { walletItem with id := "i2", name := "Scarf" }] }

/-- The state of the callback for `c` at its first `await` when it starts from the shared
object as `getCategories` first builds it. -/
def taskFor (newDate : String → JsDate) (q : CategoryQuery) (c : Category) : CountTask :=
  (startTask newDate q (categoryOptions q) c).2

/-- The category response expected for the query "wallet" on `twoCategoryStore`. -/
def walletRecords : List CategoryRecord :=
  [{ id := "c1", name := "Clothing and accessories", lostItemsCount := 1, foundItemsCount := 1 },
   { id := "c2", name := "Documents", lostItemsCount := 0, foundItemsCount := 0 }]

/-- A count operation that fails for the category "c2" and counts the lost items of
`twoCategoryStore` for every other category. -/
def failingCount (f : Filter) : Except Fault Nat :=
  if f.categoryId = some "c2" then .error Fault.storeError
  else countDocuments twoCategoryStore.lostItems f

/-- The sample store with other personal details for the only user. -/
def sampleStoreOtherOwner : Store :=
  { sampleStore with
    users := [{ id := "u1", name := "Bea", surname := "Roe", email := "bea@example.org",
                password := "y", telegram := some "@bea", phone := some "+100" }] }

/-- A found item with one stored image, owned by the user "u1". -/
def photoItem : Item :=
  { id := "65f0c0ffee00000000000001", name := "Umbrella", description := "black, folding",
    categoryId := "c1", userId := "u1", images := ["img/found/old.jpg"],
    eventDate := 1718409600000, createdAt := 1718496000000, updatedAt := 1718496000000 }

/-- A lost item with one stored image, owned by the user "u1". -/
def lostPhotoItem : Item :=
  { id := "65f0c0ffee00000000000002", name := "Keys", description := "three keys on a ring",
    categoryId := "c1", userId := "u1", images := ["img/lost/old.jpg"],
    eventDate := 1718409600000, createdAt := 1718496000000, updatedAt := 1718496000000 }

/-- A store with two users, the owner "u1" of both items and another user "u2". -/
def photoStore : Store :=
  { categories := [{ id := "c1", name := "Clothing and accessories" }],
    users := [{ id := "u1", name := "Ann", surname := "Lee", email := "ann@example.org",
                password := "x", telegram := none, phone := none },
              { id := "u2", name := "Bob", surname := "Ray", email := "bob@example.org",
                password := "z", telegram := none, phone := none }],
    lostItems := [lostPhotoItem],
    foundItems := [photoItem] }

/-- An id that no document of `photoStore` has. -/
def unknownId : String := "65f0c0ffee00000000000099"

/-- Every item of the store refers to a category of the store. -/
def categoriesExist (db : Store) : Prop :=
  ∀ item ∈ db.lostItems ++ db.foundItems, ∃ c ∈ db.categories, c.id = item.categoryId

instance (db : Store) : Decidable (categoriesExist db) := by
  unfold categoriesExist
  infer_instance

/-- An add request of the user "u1" with one uploaded file. -/
def sampleAdd : AddRequest :=
  { userId := "u1", files := ["a.jpg"],
    body := { name := some "Scarf", description := some "red wool", categoryId := some "c1",
              eventDate := some "2024-06-15" } }

/-- The same add request with a `userId` field that the client has put in the body. -/
def sampleAddForged : AddRequest :=
  { sampleAdd with extra := [("userId", "u2")] }

/-- The same add request for a category id that no category has. -/
def sampleAddNoCategory : AddRequest :=
  { sampleAdd with body := { sampleAdd.body with categoryId := some unknownId } }

/-- The id that the store gives to the document of the sample add requests. -/
def sampleNewId : String := "65f0c0ffee00000000000003"

/-- Two found items of which the one created first was found last. -/
def crossedStore : Store :=
  { categories := [{ id := "c1", name := "Clothing and accessories" }],
    foundItems :=
      [{ walletItem with id := "i1", eventDate := 1718409600000, createdAt := 1718500000000 },
       { walletItem with id := "i2", eventDate := 1718323200000, createdAt := 1718600000000 }] }

/-- A stand-in for the salted hash. -/
def sampleHash (password : String) : String := "hash:" ++ password

/-- The users of `photoStore` and no verification code. -/
def authStart : AuthState := { users := photoStore.users, codes := [] }

/-- The password stored for the user with the email, if there is one. -/
def passwordOf (st : AuthState) (email : String) : Option String :=
  (st.users.find? (fun u => u.email == email)).map (fun u => u.password)

/-- The run holds a verification request for the email. -/
def verifies (email : String) (run : List (Int × AuthRequest)) : Prop :=
  ∃ x ∈ run, ∃ code, x.2 = AuthRequest.verifyCode email code

/-! ## Text condition -/

theorem compileChar_of_not_special {c : Char} (h : c ∉ regexSpecial) :
    compileChar c = some (RegexAtom.char c) := by
  simp only [regexSpecial, List.mem_cons, not_or] at h
  unfold compileChar
  rw [if_neg h.1, if_neg h.2]

theorem mapM_compileChar_of_plain (l : List Char) (h : ∀ c ∈ l, c ∉ regexSpecial) :
    l.mapM compileChar = some (l.map RegexAtom.char) := by
  induction l with
  | nil => rfl
  | cons c cs ih =>
    have hc := compileChar_of_not_special (h c (List.mem_cons_self c cs))
    have hcs := ih (fun d hd => h d (List.mem_cons_of_mem c hd))
    rw [List.mapM_cons, hc, hcs]
    rfl

theorem compileRegex_of_plain {q : String} (h : plainText q) :
    compileRegex q = some (q.toList.map RegexAtom.char) :=
  mapM_compileChar_of_plain q.toList h

theorem matchHere_chars (q s : List Char) :
    matchHere (q.map RegexAtom.char) s = true ↔ q.map Char.toLower <+: s.map Char.toLower := by
  induction q generalizing s with
  | nil => simp [matchHere]
  | cons c cs ih =>
    cases s with
    | nil => simp [matchHere]
    | cons x xs =>
      simp only [List.map_cons, matchHere, RegexAtom.accepts, Bool.and_eq_true, beq_iff_eq, ih,
        List.cons_prefix_cons]

theorem regexSearch_chars (q s : List Char) :
    regexSearch (q.map RegexAtom.char) s = true ↔ q.map Char.toLower <:+: s.map Char.toLower := by
  induction s with
  | nil =>
    cases q with
    | nil => simp [regexSearch, matchHere]
    | cons c cs => simp [regexSearch, matchHere]
  | cons x xs ih =>
    simp only [regexSearch, Bool.or_eq_true, matchHere_chars, ih, List.map_cons,
      List.infix_cons_iff]

theorem regexTest_of_plain {q : String} (h : plainText q) (field : String) :
    regexTest q field = true ↔ containsIgnoreCase field q := by
  unfold regexTest containsIgnoreCase
  rw [compileRegex_of_plain h]
  exact regexSearch_chars q.toList field.toList

theorem textHolds_of_plain {q : String} (h : plainText q) (item : Item) :
    textHolds q item = true ↔
      containsIgnoreCase item.name q ∨ containsIgnoreCase item.description q := by
  unfold textHolds
  rw [Bool.or_eq_true, regexTest_of_plain h, regexTest_of_plain h]

/-! ## The query object of a search -/

theorem length_pos_iff_ne_empty (d : String) : d.length > 0 ↔ d ≠ "" := by
  constructor
  · intro h he
    rw [he] at h
    exact absurd h (by decide)
  · intro h
    rcases d with ⟨l⟩
    cases l with
    | nil => exact absurd rfl h
    | cons c cs => simp [String.length]

theorem length_eq_zero_iff_empty (d : String) : d.length = 0 ↔ d = "" := by
  have h := length_pos_iff_ne_empty d
  constructor
  · intro h0
    by_contra hne
    have := h.mpr hne
    omega
  · intro he
    rw [he]
    rfl

theorem truthy_iff_nonEmpty (v : Option String) : truthy v = true ↔ nonEmpty v := by
  cases v with
  | none => simp [truthy, nonEmpty]
  | some s => simp [truthy, nonEmpty]

theorem addTextCondition_or (v : Option String) (f : Filter) (h : f.or = none) :
    (addTextCondition v f).or = if truthy v then v else none := by
  unfold addTextCondition
  split <;> simp_all

theorem addTextCondition_eventDate (v : Option String) (f : Filter) :
    (addTextCondition v f).eventDate = f.eventDate := by
  unfold addTextCondition
  split <;> rfl

theorem addTextCondition_categoryId (v : Option String) (f : Filter) :
    (addTextCondition v f).categoryId = f.categoryId := by
  unfold addTextCondition
  split <;> rfl

theorem addCategoryCondition_categoryId (v : Option String) (f : Filter)
    (h : f.categoryId = none) :
    (addCategoryCondition v f).categoryId = if truthy v then v else none := by
  unfold addCategoryCondition
  split <;> simp_all

theorem addCategoryCondition_or (v : Option String) (f : Filter) :
    (addCategoryCondition v f).or = f.or := by
  unfold addCategoryCondition
  split <;> rfl

theorem addCategoryCondition_eventDate (v : Option String) (f : Filter) :
    (addCategoryCondition v f).eventDate = f.eventDate := by
  unfold addCategoryCondition
  split <;> rfl

theorem addDateBounds_or (newDate : String → JsDate) (a b : Option String) (f : Filter) :
    (addDateBounds newDate a b f).or = f.or := by
  unfold addDateBounds
  cases a <;> cases b <;> simp only [] <;> repeat (first | rfl | split)

theorem addDateBounds_categoryId (newDate : String → JsDate) (a b : Option String)
    (f : Filter) : (addDateBounds newDate a b f).categoryId = f.categoryId := by
  unfold addDateBounds
  cases a <;> cases b <;> simp only [] <;> repeat (first | rfl | split)

/-- The date condition built from the two raw bounds, in closed form. -/
theorem addDateBounds_eventDate (newDate : String → JsDate) (a b : Option String)
    (f : Filter) (h : f.eventDate = none) :
    (addDateBounds newDate a b f).eventDate =
      if truthy a = true ∨ truthy b = true then
        some { gte := if truthy a then a.map newDate else none,
               lte := if truthy b then b.map newDate else none }
      else none := by
  unfold addDateBounds
  rcases a with _ | a <;> rcases b with _ | b
  · simp [truthy, h]
  · by_cases hb : b = "" <;>
      simp [truthy, h, hb, length_eq_zero_iff_empty, Filter.setLte, Nat.pos_iff_ne_zero]
  · by_cases ha : a = "" <;>
      simp [truthy, h, ha, length_eq_zero_iff_empty, Filter.setGte, Nat.pos_iff_ne_zero]
  · by_cases ha : a = "" <;> by_cases hb : b = "" <;>
      simp [truthy, h, ha, hb, length_eq_zero_iff_empty, Filter.setGte, Filter.setLte,
        Nat.pos_iff_ne_zero]

theorem searchFilter_or (newDate : String → JsDate) (q : SearchQuery) :
    (searchFilter newDate q).or = if truthy q.query then q.query else none := by
  unfold searchFilter
  simp only []
  rw [addCategoryCondition_or, addTextCondition_or _ _ (by rw [addDateBounds_or])]

theorem searchFilter_categoryId (newDate : String → JsDate) (q : SearchQuery) :
    (searchFilter newDate q).categoryId = if truthy q.categoryId then q.categoryId else none := by
  unfold searchFilter
  simp only []
  rw [addCategoryCondition_categoryId _ _
    (by rw [addTextCondition_categoryId, addDateBounds_categoryId])]

theorem searchFilter_eventDate (newDate : String → JsDate) (q : SearchQuery) :
    (searchFilter newDate q).eventDate =
      if truthy q.dateFrom = true ∨ truthy q.dateTo = true then
        some { gte := if truthy q.dateFrom then q.dateFrom.map newDate else none,
               lte := if truthy q.dateTo then q.dateTo.map newDate else none }
      else none := by
  unfold searchFilter
  simp only []
  rw [addCategoryCondition_eventDate, addTextCondition_eventDate,
    addDateBounds_eventDate _ _ _ _ rfl]

theorem matches_false_of_fault (f : Filter) (item : Item) (h : f.fault ≠ none) :
    f.matches item = false := by
  unfold Filter.fault at h
  unfold Filter.matches
  split at h
  · rename_i hd
    have : f.dateOk item = false := by
      unfold Filter.dateOk
      cases he : f.eventDate with
      | none => simp [he] at hd
      | some r =>
        simp only [he] at hd
        simp only [DateRange.invalid, Bool.or_eq_true, beq_iff_eq] at hd
        rcases hd with hg | hl
        · simp [DateRange.holds, hg, gteHolds]
        · simp [DateRange.holds, hl, lteHolds]
    simp [this]
  · have : f.textOk item = false := by
      unfold Filter.textOk
      cases ho : f.or with
      | none => simp [ho] at h
      | some p =>
        simp only [ho] at h
        cases hc : compileRegex p with
        | none => simp [textHolds, regexTest, hc]
        | some r => simp [hc] at h
    simp [this]

theorem mem_find_iff (docs : List Item) (f : Filter) (item : Item) :
    (∃ l, find docs f = .ok l ∧ item ∈ l) ↔ item ∈ docs ∧ f.matches item = true := by
  unfold find
  cases hf : f.fault with
  | some e =>
    have := matches_false_of_fault f item (by simp [hf])
    simp [this]
  | none => simp [List.mem_filter]

theorem textOk_searchFilter (newDate : String → JsDate) (q : SearchQuery) (item : Item) :
    (searchFilter newDate q).textOk item = true ↔
      ∀ s, q.query = some s → s ≠ "" → textHolds s item = true := by
  unfold Filter.textOk
  rw [searchFilter_or]
  rcases hq : q.query with _ | s
  · simp [truthy]
  · by_cases hs : s = "" <;> simp [truthy, hs]

theorem categoryOk_searchFilter (newDate : String → JsDate) (q : SearchQuery) (item : Item) :
    (searchFilter newDate q).categoryOk item = true ↔
      ∀ c, q.categoryId = some c → c ≠ "" → item.categoryId = c := by
  unfold Filter.categoryOk
  rw [searchFilter_categoryId]
  rcases hq : q.categoryId with _ | s
  · simp [truthy]
  · by_cases hs : s = "" <;> simp [truthy, hs]

theorem gteHolds_iff (b : JsDate) (v : Int) : gteHolds b v = true ↔ ∃ t, b = some t ∧ t ≤ v := by
  cases b <;> simp [gteHolds]

theorem lteHolds_iff (b : JsDate) (v : Int) : lteHolds b v = true ↔ ∃ t, b = some t ∧ v ≤ t := by
  cases b <;> simp [lteHolds]

theorem dateOk_searchFilter (newDate : String → JsDate) (q : SearchQuery) (item : Item) :
    (searchFilter newDate q).dateOk item = true ↔
      (∀ d, q.dateFrom = some d → d ≠ "" → ∃ t, newDate d = some t ∧ t ≤ item.eventDate) ∧
      (∀ d, q.dateTo = some d → d ≠ "" → ∃ t, newDate d = some t ∧ item.eventDate ≤ t) := by
  unfold Filter.dateOk
  rw [searchFilter_eventDate]
  rcases ha : q.dateFrom with _ | a <;> rcases hb : q.dateTo with _ | b
  · simp [truthy]
  · by_cases hb0 : b = "" <;> simp [truthy, hb0, DateRange.holds, lteHolds_iff]
  · by_cases ha0 : a = "" <;> simp [truthy, ha0, DateRange.holds, gteHolds_iff]
  · by_cases ha0 : a = "" <;> by_cases hb0 : b = "" <;>
      simp [truthy, ha0, hb0, DateRange.holds, gteHolds_iff, lteHolds_iff]

theorem textOk_categoryOptions (cq : CategoryQuery) (item : Item) :
    (categoryOptions cq).textOk item = true ↔
      ∀ s, cq.query = some s → s ≠ "" → textHolds s item = true := by
  unfold Filter.textOk categoryOptions
  simp only []
  rw [addTextCondition_or _ _ rfl]
  rcases hq : cq.query with _ | s
  · simp [truthy]
  · by_cases hs : s = "" <;> simp [truthy, hs]

/-! ## C1: the text condition -/

/-- C3: for well-formed bounds, an item satisfies the date condition of the search filter
iff `dateFrom <= eventDate` when `dateFrom` is given and `eventDate <= dateTo` when `dateTo`
is given; an item whose event date is the parsed value of both bounds satisfies it, and is
selected when no other condition is present. -/
theorem date_range_inclusive (newDate : String → JsDate) (q : SearchQuery) (item : Item)
    (hFrom : ∀ d, q.dateFrom = some d → d ≠ "" → (newDate d).isSome = true)
    (hTo : ∀ d, q.dateTo = some d → d ≠ "" → (newDate d).isSome = true) :
    ((searchFilter newDate q).dateOk item = true ↔
      (∀ d t, q.dateFrom = some d → d ≠ "" → newDate d = some t → t ≤ item.eventDate) ∧
      (∀ d t, q.dateTo = some d → d ≠ "" → newDate d = some t → item.eventDate ≤ t)) ∧
    ((∀ d, q.dateFrom = some d → d ≠ "" → newDate d = some item.eventDate) →
      (∀ d, q.dateTo = some d → d ≠ "" → newDate d = some item.eventDate) →
      (searchFilter newDate q).dateOk item = true ∧
      (∀ docs, item ∈ docs → ¬ nonEmpty q.query → ¬ nonEmpty q.categoryId →
        ∃ l, find docs (searchFilter newDate q) = .ok l ∧ item ∈ l)) := by
  have hiff : (searchFilter newDate q).dateOk item = true ↔
      (∀ d t, q.dateFrom = some d → d ≠ "" → newDate d = some t → t ≤ item.eventDate) ∧
      (∀ d t, q.dateTo = some d → d ≠ "" → newDate d = some t → item.eventDate ≤ t) := by
    rw [dateOk_searchFilter]
    constructor
    · rintro ⟨h1, h2⟩
      refine ⟨fun d t hd hne ht => ?_, fun d t hd hne ht => ?_⟩
      · obtain ⟨u, hu, hle⟩ := h1 d hd hne
        rw [ht] at hu
        cases hu
        exact hle
      · obtain ⟨u, hu, hle⟩ := h2 d hd hne
        rw [ht] at hu
        cases hu
        exact hle
    · rintro ⟨h1, h2⟩
      refine ⟨fun d hd hne => ?_, fun d hd hne => ?_⟩
      · obtain ⟨t, ht⟩ := Option.isSome_iff_exists.mp (hFrom d hd hne)
        exact ⟨t, ht, h1 d t hd hne ht⟩
      · obtain ⟨t, ht⟩ := Option.isSome_iff_exists.mp (hTo d hd hne)
        exact ⟨t, ht, h2 d t hd hne ht⟩
  refine ⟨hiff, fun e1 e2 => ?_⟩
  have hdate : (searchFilter newDate q).dateOk item = true := by
    rw [hiff]
    refine ⟨fun d t hd hne ht => ?_, fun d t hd hne ht => ?_⟩
    · rw [e1 d hd hne] at ht
      cases ht
      exact le_refl _
    · rw [e2 d hd hne] at ht
      cases ht
      exact le_refl _
  refine ⟨hdate, fun docs hmem hq hc => ?_⟩
  rw [mem_find_iff]
  refine ⟨hmem, ?_⟩
  unfold Filter.matches
  rw [Bool.and_eq_true, Bool.and_eq_true, textOk_searchFilter, categoryOk_searchFilter]
  refine ⟨⟨hdate, fun s hs hne => absurd ⟨s, hs, hne⟩ hq⟩, fun c hcc hne => absurd ⟨c, hcc, hne⟩ hc⟩

/-- C3, witness: an item of 2024-06-15 under `dateFrom=2024-06-15&dateTo=2024-06-15`. -/
theorem date_range_inclusive_witness :
    (searchFilter sampleNewDate
      { dateFrom := some "2024-06-15", dateTo := some "2024-06-15" }).dateOk walletItem = true :=
  ((date_range_inclusive sampleNewDate
      { dateFrom := some "2024-06-15", dateTo := some "2024-06-15" } walletItem
      (fun d hd _ => by cases hd; decide) (fun d hd _ => by cases hd; decide)).2
    (fun d hd _ => by cases hd; decide) (fun d hd _ => by cases hd; decide)).1

/-! ## The search pipeline -/

theorem mapM_listItem_ok (cats : List Category) (docs : List Item) (items : List ListedItem)
    (h : docs.mapM (listItem cats) = .ok items) : Lists cats docs items := by
  induction docs generalizing items with
  | nil =>
    rw [List.mapM_nil] at h
    cases h
    exact List.Forall₂.nil
  | cons d ds ih =>
    rw [List.mapM_cons] at h
    cases hd : listItem cats d with
    | error e =>
      rw [hd] at h
      cases h
    | ok v =>
      cases hds : ds.mapM (listItem cats) with
      | error e =>
        rw [hd, hds] at h
        cases h
      | ok vs =>
        rw [hd, hds] at h
        cases h
        exact List.Forall₂.cons hd (ih vs hds)

theorem mapM_listItem_of_resolve (cats : List Category) (docs : List Item)
    (h : ∀ d ∈ docs, (populateCategory cats d).isSome = true) :
    ∃ items, docs.mapM (listItem cats) = .ok items := by
  induction docs with
  | nil => exact ⟨[], rfl⟩
  | cons d ds ih =>
    obtain ⟨vs, hvs⟩ := ih (fun x hx => h x (List.mem_cons_of_mem d hx))
    obtain ⟨c, hc⟩ := Option.isSome_iff_exists.mp (h d (List.mem_cons_self d ds))
    have hd : ∃ v, listItem cats d = .ok v := by
      unfold listItem
      rw [hc]
      exact ⟨_, rfl⟩
    obtain ⟨v, hv⟩ := hd
    refine ⟨v :: vs, ?_⟩
    rw [List.mapM_cons, hv, hvs]
    rfl

/-- The page of documents that a search reads from the store. -/
theorem findSorted_ok_iff (docs : List Item) (f : Filter) (dir skip : Int) (limit : Nat)
    (l : List Item) :
    findSorted docs f dir skip limit = .ok l ↔
      f.fault = none ∧ 0 ≤ skip ∧
      l = ((sortByCreatedAt dir (docs.filter f.matches)).drop skip.toNat).take limit := by
  unfold findSorted find
  cases hf : f.fault with
  | some e => simp
  | none =>
    by_cases hs : skip < 0
    · simp only [hs, if_true]
      constructor
      · intro h
        cases h
      · rintro ⟨_, h, _⟩
        omega
    · simp only [hs, if_false, Except.ok.injEq, true_and]
      constructor
      · intro h
        exact ⟨by omega, h.symm⟩
      · intro h
        exact h.2.symm

theorem countDocuments_of_valid (docs : List Item) (f : Filter) (h : f.fault = none) :
    countDocuments docs f = .ok (docs.filter f.matches).length := by
  unfold countDocuments find
  rw [h]

/-- What a successful run of the search steps returns. -/
theorem searchSteps_ok (newDate : String → JsDate) (cats : List Category) (docs : List Item)
    (q : SearchQuery) (body : SearchBody) (h : searchSteps newDate cats docs q = .ok body) :
    (searchFilter newDate q).fault = none ∧ 0 ≤ pageIndex q.page ∧
    Lists cats (((ordered newDate q docs).drop (itemsPerPage * pageIndex q.page).toNat).take
      itemsPerPage) body.items ∧
    body.totalItems = (matching newDate q docs).length ∧
    body.totalPages = mathCeilDiv body.totalItems itemsPerPage ∧
    body.page = pageIndex q.page + 1 := by
  unfold searchSteps at h
  simp only [bind, Except.bind] at h
  split at h
  · cases h
  · rename_i found hfound
    obtain ⟨hvalid, hskip, hl⟩ := (findSorted_ok_iff _ _ _ _ _ _).mp hfound
    split at h
    · cases h
    · rename_i items hitems
      rw [countDocuments_of_valid _ _ hvalid] at h
      simp only [pure, Except.pure, Except.ok.injEq] at h
      subst h
      refine ⟨hvalid, ?_, ?_, rfl, rfl, rfl⟩
      · have : (0 : Int) ≤ itemsPerPage * pageIndex q.page := hskip
        simp only [itemsPerPage] at this
        omega
      · have := mapM_listItem_ok cats found items hitems
        rw [hl] at this
        exact this

/-- When the search steps succeed. -/
theorem searchSteps_succeeds (newDate : String → JsDate) (cats : List Category)
    (docs : List Item) (q : SearchQuery) (hvalid : (searchFilter newDate q).fault = none)
    (hpage : 0 ≤ pageIndex q.page) (hcats : categoriesResolve newDate q cats docs) :
    ∃ body, searchSteps newDate cats docs q = .ok body := by
  have hskip : ¬ ((itemsPerPage : Int) * pageIndex q.page < 0) := by
    simp only [itemsPerPage]
    omega
  have hfound : findSorted docs (searchFilter newDate q) (sortDirection q.sort)
      (itemsPerPage * pageIndex q.page) itemsPerPage =
      .ok (((ordered newDate q docs).drop (itemsPerPage * pageIndex q.page).toNat).take
        itemsPerPage) := by
    rw [findSorted_ok_iff]
    exact ⟨hvalid, by omega, rfl⟩
  have hsub : ∀ d ∈ ((ordered newDate q docs).drop (itemsPerPage * pageIndex q.page).toNat).take
      itemsPerPage, (populateCategory cats d).isSome = true := by
    intro d hd
    apply hcats
    have h1 := List.mem_of_mem_drop (List.mem_of_mem_take hd)
    unfold ordered sortByCreatedAt at h1
    split at h1
    · exact (List.perm_insertionSort _ _).mem_iff.mp h1
    · exact (List.perm_insertionSort _ _).mem_iff.mp h1
  obtain ⟨items, hitems⟩ := mapM_listItem_of_resolve cats _ hsub
  refine ⟨{ totalItems := (matching newDate q docs).length,
            totalPages := mathCeilDiv (matching newDate q docs).length itemsPerPage,
            page := pageIndex q.page + 1, items := items }, ?_⟩
  unfold searchSteps
  simp only [bind, Except.bind]
  rw [hfound]
  simp only []
  rw [hitems]
  simp only []
  rw [countDocuments_of_valid _ _ hvalid]
  rfl

theorem itemSearch_json_iff (newDate : String → JsDate) (cats : List Category)
    (docs : List Item) (q : SearchQuery) (status : Nat) (body : SearchBody) :
    itemSearch newDate cats docs q = Reply.json status body ↔
      status = 200 ∧ searchSteps newDate cats docs q = .ok body := by
  unfold itemSearch
  cases h : searchSteps newDate cats docs q with
  | error e => simp
  | ok b =>
    simp only [Reply.json.injEq, Except.ok.injEq]
    constructor
    · rintro ⟨h1, h2⟩
      exact ⟨h1.symm, h2⟩
    · rintro ⟨h1, h2⟩
      exact ⟨h1.symm, h2⟩

/-! ## C4: the number of pages -/

theorem mathCeilDiv_bounds (n : Nat) :
    (mathCeilDiv n 20 = 0 ↔ n = 0) ∧
    (n ≠ 0 → (mathCeilDiv n 20 - 1) * 20 < n ∧ n ≤ mathCeilDiv n 20 * 20) := by
  unfold mathCeilDiv
  split <;> omega

theorem mathCeilDiv_eq_ceil (n : Nat) : mathCeilDiv n 20 = ⌈(n : ℚ) / 20⌉₊ := by
  by_cases hn : n = 0
  · subst hn
    simp [mathCeilDiv]
  · obtain ⟨h0, hb⟩ := mathCeilDiv_bounds n
    obtain ⟨h1, h2⟩ := hb hn
    have hp : mathCeilDiv n 20 ≠ 0 := fun h => hn (h0.mp h)
    symm
    rw [Nat.ceil_eq_iff hp]
    constructor
    · rw [lt_div_iff₀ (by norm_num)]
      exact_mod_cast h1
    · rw [div_le_iff₀ (by norm_num)]
      exact_mod_cast h2

/-- C4: in every successful search response `totalItems` is the number of documents that
match the filter and `totalPages` is the ceiling of `totalItems / 20`; it is 0 exactly when
`totalItems` is 0, and otherwise `(totalPages - 1) * 20 < totalItems <= totalPages * 20`. -/
theorem total_pages_is_ceiling (newDate : String → JsDate) (db : Store) (q : SearchQuery)
    (body : SearchBody) :
    (foundItemSearch newDate db q = Reply.json 200 body →
      body.totalItems = (matching newDate q db.foundItems).length) ∧
    (lostItemSearch newDate db q = Reply.json 200 body →
      body.totalItems = (matching newDate q db.lostItems).length) ∧
    (foundItemSearch newDate db q = Reply.json 200 body ∨
      lostItemSearch newDate db q = Reply.json 200 body →
      body.totalPages = ⌈(body.totalItems : ℚ) / 20⌉₊ ∧
      (body.totalPages = 0 ↔ body.totalItems = 0) ∧
      (body.totalItems ≠ 0 →
        (body.totalPages - 1) * 20 < body.totalItems ∧
        body.totalItems ≤ body.totalPages * 20)) := by
  refine ⟨fun h => ?_, fun h => ?_, fun h => ?_⟩
  · exact (searchSteps_ok _ _ _ _ _ ((itemSearch_json_iff _ _ _ _ _ _).mp h).2).2.2.2.1
  · exact (searchSteps_ok _ _ _ _ _ ((itemSearch_json_iff _ _ _ _ _ _).mp h).2).2.2.2.1
  · have hp : body.totalPages = mathCeilDiv body.totalItems 20 := by
      rcases h with h | h
      · exact (searchSteps_ok _ _ _ _ _ ((itemSearch_json_iff _ _ _ _ _ _).mp h).2).2.2.2.2.1
      · exact (searchSteps_ok _ _ _ _ _ ((itemSearch_json_iff _ _ _ _ _ _).mp h).2).2.2.2.2.1
    rw [hp]
    exact ⟨mathCeilDiv_eq_ceil _, mathCeilDiv_bounds _⟩

/-- C4, witness: the empty request on the sample store: one item, one page. -/
theorem total_pages_is_ceiling_witness :
    foundItemSearch sampleNewDate sampleStore {} =
      Reply.json 200 { totalItems := 1, totalPages := 1, page := 1, items := [walletListed] } ∧
    (1 : Nat) = ⌈((1 : Nat) : ℚ) / 20⌉₊ :=
  ⟨by decide,
   ((total_pages_is_ceiling sampleNewDate sampleStore {}
      { totalItems := 1, totalPages := 1, page := 1, items := [walletListed] }).2.2
      (Or.inl (by decide))).1⟩

/-! ## C5 and C6: the page parameter -/

theorem itemSearch_page (newDate : String → JsDate) (cats : List Category) (docs : List Item)
    (q : SearchQuery) (body : SearchBody)
    (h : itemSearch newDate cats docs q = Reply.json 200 body) :
    0 ≤ pageIndex q.page ∧ body.page = pageIndex q.page + 1 ∧
    Lists cats (((ordered newDate q docs).drop (itemsPerPage * pageIndex q.page).toNat).take
      itemsPerPage) body.items := by
  obtain ⟨_, h1, h2, _, _, h3⟩ := searchSteps_ok _ _ _ _ _ ((itemSearch_json_iff _ _ _ _ _ _).mp h).2
  exact ⟨h1, h3, h2⟩

theorem itemSearch_succeeds (newDate : String → JsDate) (cats : List Category)
    (docs : List Item) (q : SearchQuery) (hvalid : (searchFilter newDate q).fault = none)
    (hpage : 0 ≤ pageIndex q.page) (hcats : categoriesResolve newDate q cats docs) :
    ∃ body, itemSearch newDate cats docs q = Reply.json 200 body := by
  obtain ⟨body, hb⟩ := searchSteps_succeeds newDate cats docs q hvalid hpage hcats
  exact ⟨body, (itemSearch_json_iff _ _ _ _ _ _).mpr ⟨rfl, hb⟩⟩

theorem listItem_createdAt (cats : List Category) (d : Item) (v : ListedItem)
    (h : listItem cats d = .ok v) : v.createdAt = d.createdAt := by
  unfold listItem at h
  split at h
  · cases h
  · cases h
    rfl

theorem Lists.map_createdAt {cats : List Category} {docs : List Item} {items : List ListedItem}
    (h : Lists cats docs items) :
    items.map (fun v => v.createdAt) = docs.map (fun d => d.createdAt) := by
  induction h with
  | nil => rfl
  | cons hd _ ih =>
    simp only [List.map_cons, ih, listItem_createdAt _ _ _ hd]

theorem Lists.pairwise {cats : List Category} {docs : List Item} {items : List ListedItem}
    (h : Lists cats docs items) (R : Int → Int → Prop)
    (hd : docs.Pairwise (fun a b => R a.createdAt b.createdAt)) :
    items.Pairwise (fun a b => R a.createdAt b.createdAt) := by
  have h1 : (docs.map (fun d => d.createdAt)).Pairwise R := List.pairwise_map.mpr hd
  rw [← h.map_createdAt] at h1
  exact List.pairwise_map.mp h1

theorem sortByCreatedAt_perm (dir : Int) (docs : List Item) :
    (sortByCreatedAt dir docs).Perm docs := by
  unfold sortByCreatedAt
  split
  · exact List.perm_insertionSort _ _
  · exact List.perm_insertionSort _ _

theorem sortByCreatedAt_asc (docs : List Item) :
    (sortByCreatedAt 1 docs).Pairwise (fun a b => a.createdAt ≤ b.createdAt) := by
  haveI : IsTotal Item (fun a b => a.createdAt ≤ b.createdAt) := ⟨fun a b => le_total _ _⟩
  haveI : IsTrans Item (fun a b => a.createdAt ≤ b.createdAt) := ⟨fun _ _ _ h1 h2 => le_trans h1 h2⟩
  unfold sortByCreatedAt
  rw [if_pos rfl]
  exact List.sorted_insertionSort (fun a b : Item => a.createdAt ≤ b.createdAt) docs

theorem sortByCreatedAt_desc (dir : Int) (hdir : dir ≠ 1) (docs : List Item) :
    (sortByCreatedAt dir docs).Pairwise (fun a b => b.createdAt ≤ a.createdAt) := by
  haveI : IsTotal Item (fun a b => b.createdAt ≤ a.createdAt) := ⟨fun a b => le_total _ _⟩
  haveI : IsTrans Item (fun a b => b.createdAt ≤ a.createdAt) := ⟨fun _ _ _ h1 h2 => le_trans h2 h1⟩
  unfold sortByCreatedAt
  rw [if_neg hdir]
  exact List.sorted_insertionSort (fun a b : Item => b.createdAt ≤ a.createdAt) docs

theorem page_pairwise {R : Item → Item → Prop} {l : List Item} (h : l.Pairwise R) (s n : Nat) :
    ((l.drop s).take n).Pairwise R :=
  (h.sublist (List.drop_sublist s l)).sublist (List.take_sublist n _)

/-- C7: the items of a successful search response are in non-decreasing order of `createdAt`
when `sort` is exactly "asc", and in non-increasing order for every other value of `sort`,
the absent one included. -/
theorem results_ordered_by_creation (newDate : String → JsDate) (db : Store) (q : SearchQuery)
    (body : SearchBody)
    (h : foundItemSearch newDate db q = Reply.json 200 body ∨
      lostItemSearch newDate db q = Reply.json 200 body) :
    (q.sort = some "asc" → body.items.Pairwise (fun a b => a.createdAt ≤ b.createdAt)) ∧
    (q.sort ≠ some "asc" → body.items.Pairwise (fun a b => b.createdAt ≤ a.createdAt)) := by
  have key : ∀ docs, itemSearch newDate db.categories docs q = Reply.json 200 body →
      (q.sort = some "asc" → body.items.Pairwise (fun a b => a.createdAt ≤ b.createdAt)) ∧
      (q.sort ≠ some "asc" → body.items.Pairwise (fun a b => b.createdAt ≤ a.createdAt)) := by
    intro docs hdocs
    obtain ⟨_, _, hl⟩ := itemSearch_page _ _ _ _ _ hdocs
    constructor
    · intro hs
      refine hl.pairwise (fun x y => x ≤ y) (page_pairwise ?_ _ _)
      unfold ordered sortDirection
      rw [if_pos hs]
      exact sortByCreatedAt_asc _
    · intro hs
      refine hl.pairwise (fun x y => y ≤ x) (page_pairwise ?_ _ _)
      unfold ordered sortDirection
      rw [if_neg hs]
      exact sortByCreatedAt_desc _ (by decide) _
  rcases h with h | h
  · exact key _ h
  · exact key _ h

/-- C7, witness: the default order on the sample store. -/
theorem results_ordered_by_creation_witness :
    [walletListed].Pairwise (fun a b => b.createdAt ≤ a.createdAt) :=
  (results_ordered_by_creation sampleNewDate sampleStore {}
    { totalItems := 1, totalPages := 1, page := 1, items := [walletListed] }
    (Or.inl (by decide))).2 (by decide)

/-! ## C8: the page of rank `(k-1)*20+1` to `k*20` -/

theorem rankIn_eq_zero (l : List Item) (x : Item)
    (h : ∀ y ∈ l, x.createdAt ≤ y.createdAt) : rankIn l x = 0 := by
  unfold rankIn
  induction l with
  | nil => rfl
  | cons a t ih =>
    have ha : ¬ a.createdAt < x.createdAt := not_lt.mpr (h a (List.mem_cons_self a t))
    rw [List.filter_cons_of_neg (by simpa using ha)]
    exact ih (fun y hy => h y (List.mem_cons_of_mem a hy))

/-- In a list in strictly increasing order of creation, the element at index `i` has rank
`i`. -/
theorem rankIn_getElem_of_increasing (l : List Item)
    (hl : l.Pairwise (fun a b => a.createdAt < b.createdAt)) (i : Nat) (x : Item)
    (hx : l[i]? = some x) : rankIn l x = i := by
  induction l generalizing i with
  | nil => simp at hx
  | cons a t ih =>
    rw [List.pairwise_cons] at hl
    cases i with
    | zero =>
      simp only [List.getElem?_cons_zero, Option.some.injEq] at hx
      subst hx
      apply rankIn_eq_zero
      intro y hy
      rcases List.mem_cons.mp hy with h | h
      · rw [h]
      · exact le_of_lt (hl.1 y h)
    | succ j =>
      simp only [List.getElem?_cons_succ] at hx
      have hmem : x ∈ t := List.getElem?_mem hx
      have hlt : a.createdAt < x.createdAt := hl.1 x hmem
      have := ih hl.2 j hx
      unfold rankIn at this ⊢
      rw [List.filter_cons_of_pos (by simpa using hlt), List.length_cons, this]

theorem rankIn_perm {l₁ l₂ : List Item} (h : l₁.Perm l₂) (x : Item) :
    rankIn l₁ x = rankIn l₂ x := by
  unfold rankIn
  exact (h.filter _).length_eq

theorem mapM_ok_forall₂ {α β : Type} (f : α → Except Fault β) (l : List α) (rs : List β)
    (h : l.mapM f = .ok rs) : List.Forall₂ (fun a r => f a = .ok r) l rs := by
  induction l generalizing rs with
  | nil =>
    rw [List.mapM_nil] at h
    cases h
    exact List.Forall₂.nil
  | cons a t ih =>
    rw [List.mapM_cons] at h
    cases ha : f a with
    | error e =>
      rw [ha] at h
      cases h
    | ok v =>
      cases ht : t.mapM f with
      | error e =>
        rw [ha, ht] at h
        cases h
      | ok vs =>
        rw [ha, ht] at h
        cases h
        exact List.Forall₂.cons ha (ih vs ht)

theorem mapM_ok_of_forall {α β : Type} (f : α → Except Fault β) (l : List α)
    (h : ∀ a ∈ l, ∃ r, f a = .ok r) : ∃ rs, l.mapM f = .ok rs := by
  induction l with
  | nil => exact ⟨[], rfl⟩
  | cons a t ih =>
    obtain ⟨vs, hvs⟩ := ih (fun x hx => h x (List.mem_cons_of_mem a hx))
    obtain ⟨v, hv⟩ := h a (List.mem_cons_self a t)
    refine ⟨v :: vs, ?_⟩
    rw [List.mapM_cons, hv, hvs]
    rfl

theorem startTask_snd_overwrite (newDate : String → JsDate) (q : CategoryQuery)
    (options : Filter) (c c2 : Category) :
    (startTask newDate q (startTask newDate q options c).1 c2).2 =
      (startTask newDate q options c2).2 := rfl

theorem startTasks_eq_map_aux (newDate : String → JsDate) (q : CategoryQuery)
    (options : Filter) (cats : List Category) :
    startTasks newDate q options cats = cats.map (fun c => (startTask newDate q options c).2) := by
  induction cats generalizing options with
  | nil => rfl
  | cons c rest ih =>
    unfold startTasks
    simp only [List.map_cons]
    rw [ih]
    congr 1

/-- The shared object does not leak between callbacks: every callback copies it only after
writing its own `categoryId`. -/
theorem startTasks_eq_map (newDate : String → JsDate) (q : CategoryQuery)
    (cats : List Category) :
    startTasks newDate q (categoryOptions q) cats = cats.map (taskFor newDate q) :=
  startTasks_eq_map_aux newDate q _ cats

theorem notBefore_iff (newDate : String → JsDate) (a : Option String) (t : Int) :
    notBefore newDate a t = true ↔
      ∀ d, a = some d → d ≠ "" → ∃ u, newDate d = some u ∧ u ≤ t := by
  unfold notBefore
  rcases a with _ | d
  · simp
  · by_cases hd : d = ""
    · simp [hd]
    · cases hn : newDate d <;> simp [hd, hn]

theorem notAfter_iff (newDate : String → JsDate) (b : Option String) (t : Int) :
    notAfter newDate b t = true ↔
      ∀ d, b = some d → d ≠ "" → ∃ u, newDate d = some u ∧ t ≤ u := by
  unfold notAfter
  rcases b with _ | d
  · simp
  · by_cases hd : d = ""
    · simp [hd]
    · cases hn : newDate d <;> simp [hd, hn]

theorem textAccepts_iff (query : Option String) (item : Item) :
    textAccepts query item = true ↔
      ∀ s, query = some s → s ≠ "" → textHolds s item = true := by
  unfold textAccepts
  rcases query with _ | s
  · simp
  · by_cases hs : s = "" <;> simp [hs]

theorem dateOk_addDateBounds (newDate : String → JsDate) (a b : Option String) (f : Filter)
    (h : f.eventDate = none) (item : Item) :
    (addDateBounds newDate a b f).dateOk item = true ↔
      (∀ d, a = some d → d ≠ "" → ∃ t, newDate d = some t ∧ t ≤ item.eventDate) ∧
      (∀ d, b = some d → d ≠ "" → ∃ t, newDate d = some t ∧ item.eventDate ≤ t) := by
  unfold Filter.dateOk
  rw [addDateBounds_eventDate _ _ _ _ h]
  rcases a with _ | a <;> rcases b with _ | b
  · simp [truthy]
  · by_cases hb0 : b = "" <;> simp [truthy, hb0, DateRange.holds, lteHolds_iff]
  · by_cases ha0 : a = "" <;> simp [truthy, ha0, DateRange.holds, gteHolds_iff]
  · by_cases ha0 : a = "" <;> by_cases hb0 : b = "" <;>
      simp [truthy, ha0, hb0, DateRange.holds, gteHolds_iff, lteHolds_iff]

/-- The query object of the callback for `c`, for either collection. -/
theorem taskFor_options (newDate : String → JsDate) (q : CategoryQuery) (c : Category) :
    (taskFor newDate q c).categ = c ∧
    (taskFor newDate q c).lostOptions =
      addDateBounds newDate q.dateFrom q.dateTo
        { categoryOptions q with categoryId := some c.id } ∧
    (taskFor newDate q c).foundOptions =
      addDateBounds newDate q.dateFrom q.dateTo
        { categoryOptions q with categoryId := some c.id } :=
  ⟨rfl, rfl, rfl⟩

theorem categoryOptions_eventDate (q : CategoryQuery) : (categoryOptions q).eventDate = none := by
  unfold categoryOptions
  simp only []
  rw [addTextCondition_eventDate]

theorem taskFilter_matches (newDate : String → JsDate) (q : CategoryQuery) (c : Category)
    (item : Item) :
    (addDateBounds newDate q.dateFrom q.dateTo
      { categoryOptions q with categoryId := some c.id }).matches item =
      countsFor newDate q c item := by
  have hbase : ({ categoryOptions q with categoryId := some c.id } : Filter).eventDate = none :=
    categoryOptions_eventDate q
  rw [Bool.eq_iff_iff]
  unfold Filter.matches countsFor
  rw [Bool.and_eq_true, Bool.and_eq_true, Bool.and_eq_true, Bool.and_eq_true, Bool.and_eq_true,
    dateOk_addDateBounds _ _ _ _ hbase, notBefore_iff, notAfter_iff,
    textAccepts_iff, ← textOk_categoryOptions]
  have h1 : (addDateBounds newDate q.dateFrom q.dateTo
      { categoryOptions q with categoryId := some c.id }).textOk item =
      (categoryOptions q).textOk item := by
    unfold Filter.textOk
    rw [addDateBounds_or]
  have h2 : (addDateBounds newDate q.dateFrom q.dateTo
      { categoryOptions q with categoryId := some c.id }).categoryOk item =
      (item.categoryId == c.id) := by
    unfold Filter.categoryOk
    rw [addDateBounds_categoryId]
  rw [h1, h2]
  tauto

theorem taskFilter_fault_of_wellFormed (newDate : String → JsDate) (q : CategoryQuery)
    (c : Category) (h : wellFormed newDate q) :
    (addDateBounds newDate q.dateFrom q.dateTo
      { categoryOptions q with categoryId := some c.id }).fault = none := by
  obtain ⟨hfrom, hto, hquery⟩ := h
  have hbase : ({ categoryOptions q with categoryId := some c.id } : Filter).eventDate = none :=
    categoryOptions_eventDate q
  unfold Filter.fault
  rw [addDateBounds_eventDate _ _ _ _ hbase, addDateBounds_or]
  have hor : ({ categoryOptions q with categoryId := some c.id } : Filter).or =
      if truthy q.query then q.query else none := by
    show (categoryOptions q).or = _
    unfold categoryOptions
    simp only []
    rw [addTextCondition_or _ _ rfl]
  rw [hor]
  have hdate : (match (if truthy q.dateFrom = true ∨ truthy q.dateTo = true then
        some ({ gte := if truthy q.dateFrom then q.dateFrom.map newDate else none,
                lte := if truthy q.dateTo then q.dateTo.map newDate else none } : DateRange)
      else none) with
      | none => false
      | some r => r.invalid) = false := by
    rcases ha : q.dateFrom with _ | a <;> rcases hb : q.dateTo with _ | b
    · simp [truthy]
    · by_cases hb0 : b = ""
      · simp [truthy, hb0]
      · obtain ⟨t, ht⟩ := Option.isSome_iff_exists.mp (hto b hb hb0)
        simp [truthy, hb0, DateRange.invalid, ht]
    · by_cases ha0 : a = ""
      · simp [truthy, ha0]
      · obtain ⟨t, ht⟩ := Option.isSome_iff_exists.mp (hfrom a ha ha0)
        simp [truthy, ha0, DateRange.invalid, ht]
    · by_cases ha0 : a = "" <;> by_cases hb0 : b = ""
      · simp [truthy, ha0, hb0]
      · obtain ⟨t, ht⟩ := Option.isSome_iff_exists.mp (hto b hb hb0)
        simp [truthy, ha0, hb0, DateRange.invalid, ht]
      · obtain ⟨t, ht⟩ := Option.isSome_iff_exists.mp (hfrom a ha ha0)
        simp [truthy, ha0, hb0, DateRange.invalid, ht]
      · obtain ⟨t, ht⟩ := Option.isSome_iff_exists.mp (hfrom a ha ha0)
        obtain ⟨u, hu⟩ := Option.isSome_iff_exists.mp (hto b hb hb0)
        simp [truthy, ha0, hb0, DateRange.invalid, ht, hu]
  rw [hdate]
  simp only [Bool.false_eq_true, if_false]
  rcases hq : q.query with _ | s
  · simp [truthy]
  · by_cases hs : s = ""
    · simp [truthy, hs]
    · simp [truthy, hs, hquery s hq hs]

theorem countDocuments_ok (docs : List Item) (f : Filter) (n : Nat)
    (h : countDocuments docs f = .ok n) : n = (docs.filter f.matches).length := by
  unfold countDocuments find at h
  cases hf : f.fault with
  | some e =>
    rw [hf] at h
    cases h
  | none =>
    rw [hf] at h
    cases h
    rfl

/-- What the callback for `c` returns when its two counts succeed. -/
theorem finishTask_ok (newDate : String → JsDate) (db : Store) (q : CategoryQuery)
    (c : Category) (r : CategoryRecord)
    (h : finishTask db (taskFor newDate q c) = .ok r) :
    r = { id := c.id, name := c.name,
          lostItemsCount := (db.lostItems.filter (countsFor newDate q c)).length,
          foundItemsCount := (db.foundItems.filter (countsFor newDate q c)).length } := by
  obtain ⟨hc, hl, hf⟩ := taskFor_options newDate q c
  unfold finishTask at h
  simp only [bind, Except.bind] at h
  split at h
  · cases h
  · rename_i n hn
    split at h
    · cases h
    · rename_i m hm
      simp only [pure, Except.pure, Except.ok.injEq] at h
      have e1 := countDocuments_ok _ _ _ hn
      have e2 := countDocuments_ok _ _ _ hm
      rw [hl] at e1
      rw [hf] at e2
      have hmatch : (addDateBounds newDate q.dateFrom q.dateTo
          { categoryOptions q with categoryId := some c.id }).matches = countsFor newDate q c :=
        funext (taskFilter_matches newDate q c)
      rw [hmatch] at e1 e2
      rw [← h, e1, e2, hc]

theorem finishTask_of_wellFormed (newDate : String → JsDate) (db : Store) (q : CategoryQuery)
    (c : Category) (h : wellFormed newDate q) :
    ∃ r, finishTask db (taskFor newDate q c) = .ok r := by
  obtain ⟨_, hl, hf⟩ := taskFor_options newDate q c
  have hv := taskFilter_fault_of_wellFormed newDate q c h
  refine ⟨{ id := c.id, name := c.name,
            lostItemsCount := (db.lostItems.filter (countsFor newDate q c)).length,
            foundItemsCount := (db.foundItems.filter (countsFor newDate q c)).length }, ?_⟩
  unfold finishTask
  rw [hl, hf, countDocuments_of_valid _ _ hv, countDocuments_of_valid _ _ hv]
  have hmatch : (addDateBounds newDate q.dateFrom q.dateTo
      { categoryOptions q with categoryId := some c.id }).matches = countsFor newDate q c :=
    funext (taskFilter_matches newDate q c)
  rw [hmatch]
  rfl

theorem getCategories_json_iff (newDate : String → JsDate) (db : Store) (q : CategoryQuery)
    (status : Nat) (records : List CategoryRecord) :
    getCategories newDate db q = Reply.json status records ↔
      status = 200 ∧
      (db.categories.map (taskFor newDate q)).mapM (finishTask db) = .ok records := by
  unfold getCategories
  simp only []
  rw [startTasks_eq_map]
  cases h : (db.categories.map (taskFor newDate q)).mapM (finishTask db) with
  | error e => simp
  | ok b =>
    simp only [Reply.json.injEq, Except.ok.injEq]
    constructor
    · rintro ⟨h1, h2⟩
      exact ⟨h1.symm, h2⟩
    · rintro ⟨h1, h2⟩
      exact ⟨h1.symm, h2⟩

/-- A successful category response, record by record. -/
theorem getCategories_records (newDate : String → JsDate) (db : Store) (q : CategoryQuery)
    (records : List CategoryRecord)
    (h : getCategories newDate db q = Reply.json 200 records) :
    records = db.categories.map (fun c =>
      { id := c.id, name := c.name,
        lostItemsCount := (db.lostItems.filter (countsFor newDate q c)).length,
        foundItemsCount := (db.foundItems.filter (countsFor newDate q c)).length }) := by
  have h1 := mapM_ok_forall₂ _ _ _ ((getCategories_json_iff _ _ _ _ _).mp h).2
  rw [List.forall₂_map_left_iff] at h1
  clear h
  generalize db.categories = cats at h1
  induction h1 with
  | nil => rfl
  | cons hd _ ih =>
    rw [List.map_cons, ← ih, finishTask_ok _ _ _ _ _ hd]

theorem getCategories_succeeds (newDate : String → JsDate) (db : Store) (q : CategoryQuery)
    (h : wellFormed newDate q) : ∃ records, getCategories newDate db q = Reply.json 200 records := by
  obtain ⟨rs, hrs⟩ := mapM_ok_of_forall (finishTask db) (db.categories.map (taskFor newDate q))
    (by
      intro t ht
      obtain ⟨c, _, hc⟩ := List.mem_map.mp ht
      rw [← hc]
      exact finishTask_of_wellFormed newDate db q c h)
  exact ⟨rs, (getCategories_json_iff _ _ _ _ _).mpr ⟨rfl, hrs⟩⟩

/-! ## C9: the counts of a category -/

/-- C9: in a successful category response the record of each category `c` has
`lostItemsCount` equal to the number of lost items of category `c` that satisfy the text
condition and whose `lostDate` lies within the bounds, and `foundItemsCount` equal to the
same count over the found items with `foundDate`; both are 0 for a category without items.
Every callback queries with its own category id although all of them write it into one
shared object; the request succeeds whenever its parameters are well-formed. -/
theorem category_counts (newDate : String → JsDate) (db : Store) (q : CategoryQuery) :
    (∀ records, getCategories newDate db q = Reply.json 200 records →
      List.Forall₂ (fun c r =>
        r.lostItemsCount = (db.lostItems.filter (countsFor newDate q c)).length ∧
        r.foundItemsCount = (db.foundItems.filter (countsFor newDate q c)).length ∧
        ((∀ i ∈ db.lostItems, i.categoryId ≠ c.id) → r.lostItemsCount = 0) ∧
        ((∀ i ∈ db.foundItems, i.categoryId ≠ c.id) → r.foundItemsCount = 0))
        db.categories records) ∧
    (∀ t ∈ startTasks newDate q (categoryOptions q) db.categories,
      t.lostOptions.categoryId = some t.categ.id ∧
      t.foundOptions.categoryId = some t.categ.id) ∧
    (wellFormed newDate q →
      ∃ records, getCategories newDate db q = Reply.json 200 records) := by
  have hzero : ∀ (docs : List Item) (c : Category), (∀ i ∈ docs, i.categoryId ≠ c.id) →
      (docs.filter (countsFor newDate q c)).length = 0 := by
    intro docs c hnone
    rw [List.length_eq_zero, List.filter_eq_nil_iff]
    intro i hi
    have := hnone i hi
    simp [countsFor, this]
  refine ⟨fun records h => ?_, fun t ht => ?_, getCategories_succeeds newDate db q⟩
  · rw [getCategories_records newDate db q records h, List.forall₂_map_right_iff,
      List.forall₂_same]
    intro c _
    exact ⟨rfl, rfl, hzero _ c, hzero _ c⟩
  · rw [startTasks_eq_map] at ht
    obtain ⟨c, _, hc⟩ := List.mem_map.mp ht
    obtain ⟨h1, h2, h3⟩ := taskFor_options newDate q c
    rw [← hc, h1, h2, h3, addDateBounds_categoryId]
    exact ⟨rfl, rfl⟩

/-- C9, witness: the query "wallet" counts one lost and one found item in the first category
and none in the second. -/
theorem category_counts_witness :
    List.Forall₂ (fun (c : Category) (r : CategoryRecord) =>
        r.lostItemsCount = (twoCategoryStore.lostItems.filter
          (countsFor sampleNewDate { query := some "wallet" } c)).length ∧
        r.foundItemsCount = (twoCategoryStore.foundItems.filter
          (countsFor sampleNewDate { query := some "wallet" } c)).length ∧
        ((∀ i ∈ twoCategoryStore.lostItems, i.categoryId ≠ c.id) → r.lostItemsCount = 0) ∧
        ((∀ i ∈ twoCategoryStore.foundItems, i.categoryId ≠ c.id) → r.foundItemsCount = 0))
      twoCategoryStore.categories walletRecords ∧
    ∃ records, getCategories sampleNewDate twoCategoryStore { query := some "wallet" } =
      Reply.json 200 records :=
  have h := category_counts sampleNewDate twoCategoryStore { query := some "wallet" }
  ⟨h.1 walletRecords (by decide),
   h.2.2 ⟨fun _ h _ => (by cases h), fun _ h _ => (by cases h),
      fun s h _ => (by cases h; decide)⟩⟩

/-! ## C10: one record per category -/

/-- C10: a successful category response has exactly one record per category of the store, in
the order of the store, each with the id and the name of its category, whatever the query
and the date parameters are; the request succeeds whenever its parameters are well-formed. -/
theorem one_record_per_category (newDate : String → JsDate) (db : Store) (q : CategoryQuery) :
    (∀ records, getCategories newDate db q = Reply.json 200 records →
      records.length = db.categories.length ∧
      records.map (fun r => (r.id, r.name)) = db.categories.map (fun c => (c.id, c.name))) ∧
    (wellFormed newDate q →
      ∃ records, getCategories newDate db q = Reply.json 200 records) := by
  refine ⟨fun records h => ?_, getCategories_succeeds newDate db q⟩
  rw [getCategories_records newDate db q records h]
  constructor
  · rw [List.length_map]
  · rw [List.map_map]
    rfl

/-- C10, witness: both categories of the sample store are reported, in order, for a date
range that excludes every item. -/
theorem one_record_per_category_witness :
    ∃ records, getCategories sampleNewDate twoCategoryStore
        { dateFrom := some "2024-06-15", dateTo := some "" } = Reply.json 200 records ∧
      records.map (fun r => (r.id, r.name)) =
        [("c1", "Clothing and accessories"), ("c2", "Documents")] :=
  have h := one_record_per_category sampleNewDate twoCategoryStore
    { dateFrom := some "2024-06-15", dateTo := some "" }
  (h.2 ⟨fun _ hd _ => (by cases hd; decide),
      fun _ hd hne => (by cases hd; exact absurd rfl hne),
      fun _ hs _ => (by cases hs)⟩).imp
    (fun records hr => ⟨hr, (h.1 records hr).2⟩)

/-! ## C11: a failing count fails the whole aggregation -/

theorem mapM_error_of_exists {α β : Type} (f : α → Except Fault β) (l : List α)
    (h : ∃ a ∈ l, ∃ e, f a = .error e) : ∃ e, l.mapM f = .error e := by
  induction l with
  | nil =>
    obtain ⟨a, ha, _⟩ := h
    cases ha
  | cons a t ih =>
    rw [List.mapM_cons]
    cases ha : f a with
    | error e => exact ⟨e, rfl⟩
    | ok v =>
      have ht : ∃ b ∈ t, ∃ e, f b = .error e := by
        obtain ⟨b, hb, e, he⟩ := h
        rcases List.mem_cons.mp hb with hba | hbt
        · rw [hba, ha] at he
          cases he
        · exact ⟨b, hbt, e, he⟩
      obtain ⟨e, he⟩ := ih ht
      rw [he]
      exact ⟨e, rfl⟩

theorem finishTaskWith_error (countLost countFound : Filter → Except Fault Nat) (t : CountTask)
    (h : (∃ e, countLost t.lostOptions = .error e) ∨ (∃ e, countFound t.foundOptions = .error e)) :
    ∃ e, finishTaskWith countLost countFound t = .error e := by
  unfold finishTaskWith
  cases hl : countLost t.lostOptions with
  | error e => exact ⟨e, rfl⟩
  | ok n =>
    rcases h with ⟨e, he⟩ | ⟨e, he⟩
    · rw [hl] at he
      cases he
    · refine ⟨e, ?_⟩
      simp only [bind, Except.bind]
      rw [he]

/-- C11: when the count of lost or of found items fails for at least one category,
`getCategories` answers 500 with the error and never answers with a list of categories; the
handler on a store is the instance of this with the `countDocuments` of its two
collections. -/
theorem category_counts_fail_fast (newDate : String → JsDate) (cats : List Category)
    (countLost countFound : Filter → Except Fault Nat) (q : CategoryQuery)
    (h : ∃ t ∈ startTasks newDate q (categoryOptions q) cats,
      (∃ e, countLost t.lostOptions = .error e) ∨ (∃ e, countFound t.foundOptions = .error e)) :
    (∃ e, getCategoriesWith newDate cats countLost countFound q = Reply.unexpected e) ∧
    (getCategoriesWith newDate cats countLost countFound q).status = 500 ∧
    (∀ status records,
      getCategoriesWith newDate cats countLost countFound q ≠ Reply.json status records) ∧
    (∀ db : Store, getCategories newDate db q =
      getCategoriesWith newDate db.categories (countDocuments db.lostItems)
        (countDocuments db.foundItems) q) := by
  have herr : ∃ e, (startTasks newDate q (categoryOptions q) cats).mapM
      (finishTaskWith countLost countFound) = .error e := by
    apply mapM_error_of_exists
    obtain ⟨t, ht, hfail⟩ := h
    exact ⟨t, ht, finishTaskWith_error countLost countFound t hfail⟩
  obtain ⟨e, he⟩ := herr
  have hreply : getCategoriesWith newDate cats countLost countFound q = Reply.unexpected e := by
    unfold getCategoriesWith
    simp only []
    rw [he]
  refine ⟨⟨e, hreply⟩, ?_, ?_, fun db => rfl⟩
  · rw [hreply]
    rfl
  · intro status records hjson
    rw [hreply] at hjson
    cases hjson

/-- C11, witness: the count of lost items fails for the second of two categories. -/
theorem category_counts_fail_fast_witness :
    getCategoriesWith sampleNewDate twoCategoryStore.categories failingCount
      (countDocuments twoCategoryStore.foundItems) {} = Reply.unexpected Fault.storeError ∧
    (getCategoriesWith sampleNewDate twoCategoryStore.categories failingCount
      (countDocuments twoCategoryStore.foundItems) {}).status = 500 :=
  ⟨by decide,
   (category_counts_fail_fast sampleNewDate twoCategoryStore.categories failingCount
      (countDocuments twoCategoryStore.foundItems) {}
      ⟨taskFor sampleNewDate {} { id := "c2", name := "Documents" }, by decide,
        Or.inl ⟨Fault.storeError, rfl⟩⟩).2.1⟩

/-! ## C12: the listing shape -/

theorem listItem_ok_iff (cats : List Category) (d : Item) (v : ListedItem) :
    listItem cats d = .ok v ↔
      ∃ c, populateCategory cats d = some c ∧
        v = { id := d.id, name := d.name, description := d.description, userId := d.userId,
              category := { id := c.id, name := c.name }, images := d.images,
              eventDate := d.eventDate, createdAt := d.createdAt, updatedAt := d.updatedAt } := by
  unfold listItem
  cases hc : populateCategory cats d with
  | none => simp
  | some c =>
    simp only [Except.ok.injEq, Option.some.injEq, exists_eq_left']
    exact eq_comm

theorem populateCategory_some (cats : List Category) (d : Item) (c : Category)
    (h : populateCategory cats d = some c) : c ∈ cats ∧ c.id = d.categoryId := by
  unfold populateCategory at h
  have h1 := List.find?_some h
  have h2 := List.mem_of_find?_eq_some h
  exact ⟨h2, by simpa using h1⟩

theorem Lists.exists_of_mem {cats : List Category} {docs : List Item} {items : List ListedItem}
    (h : Lists cats docs items) (v : ListedItem) (hv : v ∈ items) :
    ∃ d ∈ docs, listItem cats d = .ok v := by
  induction h with
  | nil => cases hv
  | cons hd _ ih =>
    rcases List.mem_cons.mp hv with h1 | h1
    · subst h1
      exact ⟨_, List.mem_cons_self _ _, hd⟩
    · obtain ⟨d, hd1, hd2⟩ := ih h1
      exact ⟨d, List.mem_cons_of_mem _ hd1, hd2⟩

theorem itemSearch_items (newDate : String → JsDate) (cats : List Category) (docs : List Item)
    (q : SearchQuery) (body : SearchBody)
    (h : itemSearch newDate cats docs q = Reply.json 200 body) (v : ListedItem)
    (hv : v ∈ body.items) :
    ∃ d ∈ docs, ∃ c ∈ cats, c.id = d.categoryId ∧
      v = { id := d.id, name := d.name, description := d.description, userId := d.userId,
            category := { id := c.id, name := c.name }, images := d.images,
            eventDate := d.eventDate, createdAt := d.createdAt, updatedAt := d.updatedAt } := by
  obtain ⟨_, _, hl⟩ := itemSearch_page _ _ _ _ _ h
  obtain ⟨d, hd, hdv⟩ := hl.exists_of_mem v hv
  obtain ⟨c, hc, hvc⟩ := (listItem_ok_iff _ _ _).mp hdv
  obtain ⟨hc1, hc2⟩ := populateCategory_some _ _ _ hc
  refine ⟨d, ?_, c, hc1, hc2, hvc⟩
  have h1 := List.mem_of_mem_drop (List.mem_of_mem_take hd)
  have h2 := (sortByCreatedAt_perm _ _).mem_iff.mp h1
  exact (List.mem_filter.mp h2).1

/-- C12: every item of a successful search response is the projection of a document of the
collection onto id, name, description, userId, category, images, event date, createdAt and
updatedAt, the category id and name being those of the category the document refers to; the
response does not depend on the user collection, so two stores with the same categories and
items give the same search responses whatever the personal details of the owners are. -/
theorem search_omits_owner_details (newDate : String → JsDate) (db db2 : Store)
    (q : SearchQuery) (hc : db.categories = db2.categories)
    (hl : db.lostItems = db2.lostItems) (hf : db.foundItems = db2.foundItems) :
    foundItemSearch newDate db q = foundItemSearch newDate db2 q ∧
    lostItemSearch newDate db q = lostItemSearch newDate db2 q ∧
    (∀ body, foundItemSearch newDate db q = Reply.json 200 body → ∀ v ∈ body.items,
      ∃ d ∈ db.foundItems, ∃ c ∈ db.categories, c.id = d.categoryId ∧
        v = { id := d.id, name := d.name, description := d.description, userId := d.userId,
              category := { id := c.id, name := c.name }, images := d.images,
              eventDate := d.eventDate, createdAt := d.createdAt,
              updatedAt := d.updatedAt }) ∧
    (∀ body, lostItemSearch newDate db q = Reply.json 200 body → ∀ v ∈ body.items,
      ∃ d ∈ db.lostItems, ∃ c ∈ db.categories, c.id = d.categoryId ∧
        v = { id := d.id, name := d.name, description := d.description, userId := d.userId,
              category := { id := c.id, name := c.name }, images := d.images,
              eventDate := d.eventDate, createdAt := d.createdAt,
              updatedAt := d.updatedAt }) := by
  refine ⟨?_, ?_, fun body h v hv => itemSearch_items _ _ _ _ _ h v hv,
    fun body h v hv => itemSearch_items _ _ _ _ _ h v hv⟩
  · unfold foundItemSearch
    rw [hc, hf]
  · unfold lostItemSearch
    rw [hc, hl]

/-- C12, witness: the sample store and the same store with another name, surname, email,
telegram and phone for the owner. -/
theorem search_omits_owner_details_witness :
    sampleStore.users ≠ sampleStoreOtherOwner.users ∧
    foundItemSearch sampleNewDate sampleStore {} =
      foundItemSearch sampleNewDate sampleStoreOtherOwner {} :=
  ⟨by decide,
   (search_omits_owner_details sampleNewDate sampleStore sampleStoreOtherOwner {}
      rfl rfl rfl).1⟩

/-! ## C13: the detail view -/

theorem itemGetById_of_missing (users : List User) (cats : List Category) (docs : List Item)
    (id : String) (h : findById docs id = none) :
    itemGetById users cats docs id = Reply.unexpected Fault.nullDeref := by
  unfold itemGetById
  rw [h]

theorem itemGetById_of_found (users : List User) (cats : List Category) (docs : List Item)
    (id : String) (item : Item) (u : User) (c : Category) (h : findById docs id = some item)
    (hu : populateUser users item = some u) (hc : populateCategory cats item = some c) :
    itemGetById users cats docs id = Reply.json 200
      { id := item.id, name := item.name, description := item.description,
        images := item.images,
        user := { id := u.id, name := u.name, surname := u.surname, email := u.email,
                  telegram := u.telegram, phone := u.phone },
        category := { id := c.id, name := c.name },
        eventDate := item.eventDate, createdAt := item.createdAt,
        updatedAt := item.updatedAt } := by
  unfold itemGetById
  rw [h]
  simp only []
  rw [hu]
  simp only []
  rw [hc]

/-- C13, the code at the failing input: for an id that no item has, `findById` yields `null`,
the handler reads `foundItem.id` without a test, and the `catch` block answers 500, not 404,
in `foundItemGetById` and in `lostItemGetById` alike. -/
theorem getById_of_unknown_id_is_500 :
    findById photoStore.foundItems unknownId = none ∧
    foundItemGetById photoStore unknownId = Reply.unexpected Fault.nullDeref ∧
    (foundItemGetById photoStore unknownId).status = 500 ∧
    findById photoStore.lostItems unknownId = none ∧
    lostItemGetById photoStore unknownId = Reply.unexpected Fault.nullDeref ∧
    (lostItemGetById photoStore unknownId).status = 500 := by
  decide

/-! ## C14: update and delete by another user -/

theorem itemUpdate_of_other_user (newDate : String → JsDate) (dir notFound : String)
    (now : Int) (docs : List Item) (req : UpdateRequest) (item : Item)
    (h : findById docs req.id = some item) (hne : item.userId ≠ req.userId) :
    itemUpdate newDate dir notFound now docs req =
      { reply := Reply.message 400 "Access denied.", docs := docs,
        trace := req.files.map (fun f => Effect.deleteImage (dir ++ f)) } := by
  unfold itemUpdate
  rw [h]
  simp only [bne_iff_ne, ne_eq, hne, not_false_eq_true, if_true]

theorem itemDelete_of_other_user (deleted notFound : String) (docs : List Item)
    (req : DeleteRequest) (item : Item) (h : findById docs req.id = some item)
    (hne : item.userId ≠ req.userId) :
    itemDelete deleted notFound docs req =
      { reply := Reply.message 400 "Access denied.", docs := docs, trace := [] } := by
  unfold itemDelete
  rw [h]
  simp only [bne_iff_ne, ne_eq, hne, not_false_eq_true, if_true]

theorem itemUpdate_without_files (newDate : String → JsDate) (dir notFound : String)
    (now : Int) (docs : List Item) (req : UpdateRequest) (item : Item)
    (h : findById docs req.id = some item) (howner : item.userId = req.userId)
    (hfiles : req.files = []) :
    itemUpdate newDate dir notFound now docs req =
      { reply := Reply.unexpected Fault.constAssign, docs := docs, trace := [] } := by
  unfold itemUpdate
  rw [h]
  simp [howner, hfiles]

/-- C15, the code at the failing input: the owner updates the name of an item and uploads
no file; the handler assigns to the constant `images`, the `catch` block answers 500 and the
record keeps its old name, in `foundItemUpdate` and in `lostItemUpdate` alike. -/
theorem update_without_files_is_500 :
    (foundItemUpdate sampleNewDate 1718500000000 photoStore
      { id := photoItem.id, userId := "u1", name := some "Black umbrella" }).reply =
        Reply.unexpected Fault.constAssign ∧
    (foundItemUpdate sampleNewDate 1718500000000 photoStore
      { id := photoItem.id, userId := "u1", name := some "Black umbrella" }).reply.status = 500 ∧
    (foundItemUpdate sampleNewDate 1718500000000 photoStore
      { id := photoItem.id, userId := "u1", name := some "Black umbrella" }).db = photoStore ∧
    (lostItemUpdate sampleNewDate 1718500000000 photoStore
      { id := lostPhotoItem.id, userId := "u1", name := some "House keys" }).reply =
        Reply.unexpected Fault.constAssign ∧
    (lostItemUpdate sampleNewDate 1718500000000 photoStore
      { id := lostPhotoItem.id, userId := "u1", name := some "House keys" }).db = photoStore := by
  decide

/-! ## C16 and C18: an update by the owner with new images -/

theorem findById_id (docs : List Item) (id : String) (item : Item)
    (h : findById docs id = some item) : item.id = id := by
  unfold findById at h
  simpa using List.find?_some h

/-- An update by the owner with at least one new file: the old images are released, then
the store is asked to write. -/
theorem itemUpdate_of_owner (newDate : String → JsDate) (dir notFound : String) (now : Int)
    (docs : List Item) (req : UpdateRequest) (item : Item)
    (h : findById docs req.id = some item) (howner : item.userId = req.userId)
    (hfiles : req.files ≠ []) :
    itemUpdate newDate dir notFound now docs req =
      match castUpdate (updateDoc newDate req item (req.files.map (fun f => dir ++ f))) now item with
      | .error e =>
        { reply := Reply.unexpected e, docs := docs,
          trace := item.images.map Effect.deleteImage }
      | .ok new =>
        { reply := Reply.json 200 new, docs := replaceById item.id new docs,
          trace := item.images.map Effect.deleteImage ++
            [Effect.storeUpdate item.id
              (updateDoc newDate req item (req.files.map (fun f => dir ++ f)))] } := by
  have hid : findById docs item.id = some item := by
    rw [findById_id docs req.id item h]
    exact h
  have hlen : ¬ (req.files.map (fun f => dir ++ f)).length = 0 := by
    rw [List.length_map]
    exact fun h0 => hfiles (List.length_eq_zero.mp h0)
  unfold itemUpdate
  rw [h]
  simp only [howner, bne_self_eq_false, Bool.false_eq_true, if_false, beq_iff_eq, hlen]
  unfold findByIdAndUpdate
  rw [hid]
  simp only []
  cases castUpdate (updateDoc newDate req item (req.files.map (fun f => dir ++ f))) now item <;> rfl

theorem itemUpdate_of_missing (newDate : String → JsDate) (dir notFound : String) (now : Int)
    (docs : List Item) (req : UpdateRequest) (h : findById docs req.id = none) :
    itemUpdate newDate dir notFound now docs req =
      { reply := Reply.message 404 notFound, docs := docs, trace := [] } := by
  unfold itemUpdate
  rw [h]

/-- C17, the code at the failing input: an update with one uploaded file for an id that no
item has is answered 404 and the release of the uploaded file is not requested, in
`foundItemUpdate` and in `lostItemUpdate` alike, whereas the same upload by a user who is not
the owner of an existing item has its file released. -/
theorem uploaded_files_kept_on_404 :
    (foundItemUpdate sampleNewDate 1718500000000 photoStore
      { id := unknownId, userId := "u1", files := ["new.jpg"] }).reply =
        Reply.message 404 "Found item post with this id does not exist." ∧
    (foundItemUpdate sampleNewDate 1718500000000 photoStore
      { id := unknownId, userId := "u1", files := ["new.jpg"] }).trace = [] ∧
    (lostItemUpdate sampleNewDate 1718500000000 photoStore
      { id := unknownId, userId := "u1", files := ["new.jpg"] }).reply =
        Reply.message 404 "Lost item post with this id does not exist." ∧
    (lostItemUpdate sampleNewDate 1718500000000 photoStore
      { id := unknownId, userId := "u1", files := ["new.jpg"] }).trace = [] ∧
    (foundItemUpdate sampleNewDate 1718500000000 photoStore
      { id := photoItem.id, userId := "u2", files := ["new.jpg"] }).trace =
        [Effect.deleteImage "img/found/new.jpg"] := by
  decide

/-! ## C18: the fields of the written record -/

theorem orPrevious_of_given (v : Option String) (previous s : String) (h : v = some s)
    (hs : s ≠ "") : orPrevious v previous = s := by
  subst h
  simp [orPrevious, hs]

theorem orPrevious_of_not_given (v : Option String) (previous : String) (h : ¬ nonEmpty v) :
    orPrevious v previous = previous := by
  unfold orPrevious
  rcases v with _ | s
  · rfl
  · by_cases hs : s = ""
    · simp [hs]
    · exact absurd ⟨s, rfl, hs⟩ h

theorem dateOrPrevious_of_given (newDate : String → JsDate) (v : Option String) (previous : Int)
    (s : String) (h : v = some s) (hs : s ≠ "") :
    dateOrPrevious newDate v previous = newDate s := by
  subst h
  simp [dateOrPrevious, hs]

theorem dateOrPrevious_of_not_given (newDate : String → JsDate) (v : Option String)
    (previous : Int) (h : ¬ nonEmpty v) : dateOrPrevious newDate v previous = some previous := by
  unfold dateOrPrevious
  rcases v with _ | s
  · rfl
  · by_cases hs : s = ""
    · simp [hs]
    · exact absurd ⟨s, rfl, hs⟩ h

/-- The record that an accepted update by the owner writes. -/
theorem itemUpdate_written (newDate : String → JsDate) (dir notFound : String) (now : Int)
    (docs : List Item) (req : UpdateRequest) (item written : Item)
    (h : findById docs req.id = some item) (howner : item.userId = req.userId)
    (hfiles : req.files ≠ [])
    (hw : (itemUpdate newDate dir notFound now docs req).reply = Reply.json 200 written) :
    written.name = jsTrim (orPrevious req.name item.name) ∧
    written.description = jsTrim (orPrevious req.description item.description) ∧
    written.categoryId = orPrevious req.categoryId item.categoryId ∧
    dateOrPrevious newDate req.eventDate item.eventDate = some written.eventDate ∧
    Effect.storeUpdate item.id (updateDoc newDate req item (req.files.map (fun f => dir ++ f))) ∈
      (itemUpdate newDate dir notFound now docs req).trace := by
  rw [itemUpdate_of_owner newDate dir notFound now docs req item h howner hfiles] at hw ⊢
  cases hd : dateOrPrevious newDate req.eventDate item.eventDate with
  | none =>
    have hc : castUpdate (updateDoc newDate req item (req.files.map (fun f => dir ++ f)))
        now item = .error Fault.castDate := by
      simp only [castUpdate, updateDoc, hd]
    rw [hc] at hw
    cases hw
  | some t =>
    have hc : castUpdate (updateDoc newDate req item (req.files.map (fun f => dir ++ f)))
        now item = .ok
        { item with
          name := jsTrim (orPrevious req.name item.name),
          description := jsTrim (orPrevious req.description item.description),
          categoryId := orPrevious req.categoryId item.categoryId,
          images := req.files.map (fun f => dir ++ f),
          eventDate := t, updatedAt := now } := by
      simp only [castUpdate, updateDoc, hd]
    rw [hc] at hw ⊢
    simp only [Reply.json.injEq, true_and] at hw
    subst hw
    exact ⟨rfl, rfl, rfl, rfl, by simp⟩

/-- C18, counterexample: the owner of the lost item sends the description " ", a non-empty
string; the schema trims it and the written record has the empty description in place of
"three keys on a ring". -/
theorem blank_description_is_written_empty :
    (" " : String) ≠ "" ∧ lostPhotoItem.description = "three keys on a ring" ∧
    (lostItemUpdate sampleNewDate 1718500000000 photoStore
      { id := lostPhotoItem.id, userId := "u1", files := ["new.jpg"],
        description := some " " }).reply =
      Reply.json 200
        { lostPhotoItem with description := "", images := ["img/lost/new.jpg"],
                             updatedAt := 1718500000000 } := by
  decide

/-- C18, amended: in the record written by an accepted update of the owner, `categoryId` is the
value supplied and the event date is `new Date` of the value supplied when that value is a
non-empty string; `name` (when something remains of it) and `description` are the value
supplied without its leading and trailing white space, as the `trim` option of the schema
prescribes; each of the four is the previous value of the item (the stored `name` and
`description` being trimmed) when the value is absent or empty, so an absent or empty value
changes no field and no request sets `categoryId` to the empty string unless it was
empty. -/
theorem update_written_fields (newDate : String → JsDate) (now : Int) (db : Store)
    (req : UpdateRequest) (item written : Item) (howner : item.userId = req.userId)
    (hfiles : req.files ≠ [])
    (h : (findById db.foundItems req.id = some item ∧
          (foundItemUpdate newDate now db req).reply = Reply.json 200 written) ∨
         (findById db.lostItems req.id = some item ∧
          (lostItemUpdate newDate now db req).reply = Reply.json 200 written)) :
    (∀ s, req.categoryId = some s → s ≠ "" → written.categoryId = s) ∧
    (∀ s, req.eventDate = some s → s ≠ "" → newDate s = some written.eventDate) ∧
    (∀ s, req.name = some s → s ≠ "" → jsTrim s ≠ "" → written.name = jsTrim s) ∧
    (∀ s, req.description = some s → s ≠ "" → written.description = jsTrim s) ∧
    (¬ nonEmpty req.categoryId → written.categoryId = item.categoryId) ∧
    (¬ nonEmpty req.eventDate → written.eventDate = item.eventDate) ∧
    (¬ nonEmpty req.name → jsTrim item.name = item.name → written.name = item.name) ∧
    (¬ nonEmpty req.description → jsTrim item.description = item.description →
      written.description = item.description) ∧
    (written.categoryId = "" → item.categoryId = "") := by
  have key : written.name = jsTrim (orPrevious req.name item.name) ∧
      written.description = jsTrim (orPrevious req.description item.description) ∧
      written.categoryId = orPrevious req.categoryId item.categoryId ∧
      dateOrPrevious newDate req.eventDate item.eventDate = some written.eventDate := by
    rcases h with ⟨hf, hw⟩ | ⟨hf, hw⟩
    · have := itemUpdate_written newDate "img/found/"
        "Found item post with this id does not exist." now db.foundItems req item written
        hf howner hfiles hw
      exact ⟨this.1, this.2.1, this.2.2.1, this.2.2.2.1⟩
    · have := itemUpdate_written newDate "img/lost/"
        "Lost item post with this id does not exist." now db.lostItems req item written
        hf howner hfiles hw
      exact ⟨this.1, this.2.1, this.2.2.1, this.2.2.2.1⟩
  obtain ⟨hn, hd, hc, he⟩ := key
  refine ⟨?_, ?_, ?_, ?_, ?_, ?_, ?_, ?_, ?_⟩
  · intro s hs hne
    rw [hc, orPrevious_of_given _ _ s hs hne]
  · intro s hs hne
    rw [← he, dateOrPrevious_of_given _ _ _ s hs hne]
  · intro s hs hne _
    rw [hn, orPrevious_of_given _ _ s hs hne]
  · intro s hs hne
    rw [hd, orPrevious_of_given _ _ s hs hne]
  · intro hno
    rw [hc, orPrevious_of_not_given _ _ hno]
  · intro hno
    rw [dateOrPrevious_of_not_given _ _ _ hno] at he
    exact (Option.some.inj he).symm
  · intro hno htrim
    rw [hn, orPrevious_of_not_given _ _ hno, htrim]
  · intro hno htrim
    rw [hd, orPrevious_of_not_given _ _ hno, htrim]
  · intro hempty
    rw [hc] at hempty
    by_cases hg : nonEmpty req.categoryId
    · obtain ⟨s, hs, hne⟩ := hg
      rw [orPrevious_of_given _ _ s hs hne] at hempty
      exact absurd hempty hne
    · rw [orPrevious_of_not_given _ _ hg] at hempty
      exact hempty

/-- C18, witness: the owner of the found item sends a new name with white space around it and
an empty description, with one new image. -/
theorem update_written_fields_witness :
    (foundItemUpdate sampleNewDate 1718500000000 photoStore
      { id := photoItem.id, userId := "u1", files := ["new.jpg"],
        name := some " Black umbrella ", description := some "" }).reply =
      Reply.json 200
        { photoItem with name := "Black umbrella", images := ["img/found/new.jpg"],
                         updatedAt := 1718500000000 } ∧
    ("Black umbrella" : String) = jsTrim " Black umbrella " ∧
    photoItem.description = "black, folding" :=
  have h := update_written_fields sampleNewDate 1718500000000 photoStore
    { id := photoItem.id, userId := "u1", files := ["new.jpg"],
      name := some " Black umbrella ", description := some "" } photoItem
    { photoItem with name := "Black umbrella", images := ["img/found/new.jpg"],
                     updatedAt := 1718500000000 } rfl (by decide)
    (Or.inl ⟨by decide, by decide⟩)
  ⟨by decide, h.2.2.1 " Black umbrella " rfl (by decide) (by decide),
    h.2.2.2.2.2.2.2.1 (by decide) (by decide)⟩

/-! ## C19: delete by the owner -/

/-- The document that `findById` returns is the first with the id, and `findByIdAndDelete`
removes this one. -/
theorem findByIdAndDelete_split (docs : List Item) (id : String) (item : Item)
    (h : findById docs id = some item) :
    ∃ pre post, docs = pre ++ item :: post ∧ (∀ d ∈ pre, d.id ≠ id) ∧
      findByIdAndDelete docs id = pre ++ post := by
  unfold findById at h
  unfold findByIdAndDelete
  induction docs with
  | nil => simp at h
  | cons d ds ih =>
    by_cases hd : d.id = id
    · have hb : (d.id == id) = true := by simpa using hd
      rw [List.find?_cons] at h
      simp only [hb] at h
      cases h
      refine ⟨[], ds, rfl, fun x hx => absurd hx (List.not_mem_nil x), ?_⟩
      rw [List.eraseP_cons]
      simp only [hb, cond_true, List.nil_append]
    · have hb : ¬ (d.id == id) = true := by simpa using hd
      rw [List.find?_cons] at h
      simp only [hb] at h
      obtain ⟨pre, post, h1, h2, h3⟩ := ih h
      refine ⟨d :: pre, post, by rw [h1]; rfl, ?_, ?_⟩
      · intro x hx
        rcases List.mem_cons.mp hx with hx | hx
        · rw [hx]
          exact hd
        · exact h2 x hx
      · rw [List.eraseP_cons, h3]
        simp only [hb, cond_false, List.cons_append]

theorem itemDelete_of_owner (deleted notFound : String) (docs : List Item)
    (req : DeleteRequest) (item : Item) (h : findById docs req.id = some item)
    (howner : item.userId = req.userId) :
    itemDelete deleted notFound docs req =
      { reply := Reply.message 200 deleted, docs := findByIdAndDelete docs req.id,
        trace := item.images.map Effect.deleteImage ++ [Effect.storeDelete req.id] } := by
  unfold itemDelete
  rw [h]
  simp [howner]

/-- C19: for an existing item and a delete request by its owner, the handler requests the
release of the images of the item, one request per entry of the list and in its order, then
the removal of the record; the collection loses exactly this record, every other record and
every other collection stay as they were, and the answer is 200. -/
theorem owner_delete (db : Store) (req : DeleteRequest) (item : Item)
    (howner : item.userId = req.userId) :
    (findById db.foundItems req.id = some item →
      (foundItemDelete db req).reply =
        Reply.message 200 "Found item post deleted successfully." ∧
      (foundItemDelete db req).reply.status = 200 ∧
      (foundItemDelete db req).trace =
        item.images.map Effect.deleteImage ++ [Effect.storeDelete req.id] ∧
      (∃ pre post, db.foundItems = pre ++ item :: post ∧ (∀ d ∈ pre, d.id ≠ req.id) ∧
        (foundItemDelete db req).db.foundItems = pre ++ post) ∧
      (foundItemDelete db req).db.lostItems = db.lostItems ∧
      (foundItemDelete db req).db.categories = db.categories ∧
      (foundItemDelete db req).db.users = db.users) ∧
    (findById db.lostItems req.id = some item →
      (lostItemDelete db req).reply =
        Reply.message 200 "Lost item post deleted successfully." ∧
      (lostItemDelete db req).reply.status = 200 ∧
      (lostItemDelete db req).trace =
        item.images.map Effect.deleteImage ++ [Effect.storeDelete req.id] ∧
      (∃ pre post, db.lostItems = pre ++ item :: post ∧ (∀ d ∈ pre, d.id ≠ req.id) ∧
        (lostItemDelete db req).db.lostItems = pre ++ post) ∧
      (lostItemDelete db req).db.foundItems = db.foundItems ∧
      (lostItemDelete db req).db.categories = db.categories ∧
      (lostItemDelete db req).db.users = db.users) := by
  constructor
  · intro h
    have hd := itemDelete_of_owner "Found item post deleted successfully."
      "Found item post with this id does not exist." db.foundItems req item h howner
    unfold foundItemDelete
    rw [hd]
    exact ⟨rfl, rfl, rfl, findByIdAndDelete_split _ _ _ h, rfl, rfl, rfl⟩
  · intro h
    have hd := itemDelete_of_owner "Lost item post deleted successfully."
      "Lost item post with this id does not exist." db.lostItems req item h howner
    unfold lostItemDelete
    rw [hd]
    exact ⟨rfl, rfl, rfl, findByIdAndDelete_split _ _ _ h, rfl, rfl, rfl⟩

/-- C19, witness: the owner deletes the found item of the sample store. -/
theorem owner_delete_witness :
    (foundItemDelete photoStore { id := photoItem.id, userId := "u1" }).trace =
      [Effect.deleteImage "img/found/old.jpg", Effect.storeDelete photoItem.id] ∧
    (foundItemDelete photoStore { id := photoItem.id, userId := "u1" }).db =
      { photoStore with foundItems := [] } ∧
    (foundItemDelete photoStore { id := photoItem.id, userId := "u1" }).reply.status = 200 :=
  have h := (owner_delete photoStore { id := photoItem.id, userId := "u1" } photoItem rfl).1
    (by decide)
  ⟨h.2.2.1, by decide, h.2.1⟩

/-! ## C20: the validation of an add request -/

theorem missing_iff (v : Option String) : missing v = true ↔ ¬ nonEmpty v := by
  unfold missing
  rcases v with _ | s
  · simp [truthy, nonEmpty]
  · by_cases hs : s = ""
    · simp [truthy, nonEmpty, hs]
    · simp [truthy, nonEmpty, hs, length_eq_zero_iff_empty]

theorem validateAdd_spec (dateKey dateMessage : String) (body : AddBody) :
    (validateAdd dateKey dateMessage body = Middleware.next ↔
      nonEmpty body.name ∧ nonEmpty body.categoryId ∧ nonEmpty body.eventDate) ∧
    (¬ (nonEmpty body.name ∧ nonEmpty body.categoryId ∧ nonEmpty body.eventDate) →
      validateAdd dateKey dateMessage body =
        Middleware.respond (Reply.json 400 (addErrors dateKey dateMessage body))) ∧
    (addErrors dateKey dateMessage body).map Prod.fst =
      (if nonEmpty body.name then [] else ["name"]) ++
      (if nonEmpty body.categoryId then [] else ["categoryId"]) ++
      (if nonEmpty body.eventDate then [] else [dateKey]) := by
  have h1 := missing_iff body.name
  have h2 := missing_iff body.categoryId
  have h3 := missing_iff body.eventDate
  unfold validateAdd addErrors
  by_cases g1 : nonEmpty body.name <;> by_cases g2 : nonEmpty body.categoryId <;>
    by_cases g3 : nonEmpty body.eventDate <;>
    simp [g1, g2, g3, h1, h2, h3]

/-- C20: `validateFoundAdd` / `validateLostAdd` call `next()` iff `name`, `categoryId` and
the event date are all present and non-empty; otherwise they answer 400 with an error map
whose keys are exactly the required fields that are missing or empty, in the order `name`,
`categoryId`, date, and the add handler of the route does not run. -/
theorem add_validation (body : AddBody) :
    (validateFoundAdd body = Middleware.next ↔
      nonEmpty body.name ∧ nonEmpty body.categoryId ∧ nonEmpty body.eventDate) ∧
    (validateLostAdd body = Middleware.next ↔
      nonEmpty body.name ∧ nonEmpty body.categoryId ∧ nonEmpty body.eventDate) ∧
    (¬ (nonEmpty body.name ∧ nonEmpty body.categoryId ∧ nonEmpty body.eventDate) →
      (∃ errors, validateFoundAdd body = Middleware.respond (Reply.json 400 errors) ∧
        errors.map Prod.fst =
          (if nonEmpty body.name then [] else ["name"]) ++
          (if nonEmpty body.categoryId then [] else ["categoryId"]) ++
          (if nonEmpty body.eventDate then [] else ["foundDate"]) ∧
        ∀ (ρ : Type) (handler : Unit → ρ),
          route (validateFoundAdd body) handler = Sum.inl (Reply.json 400 errors)) ∧
      (∃ errors, validateLostAdd body = Middleware.respond (Reply.json 400 errors) ∧
        errors.map Prod.fst =
          (if nonEmpty body.name then [] else ["name"]) ++
          (if nonEmpty body.categoryId then [] else ["categoryId"]) ++
          (if nonEmpty body.eventDate then [] else ["lostDate"]) ∧
        ∀ (ρ : Type) (handler : Unit → ρ),
          route (validateLostAdd body) handler = Sum.inl (Reply.json 400 errors))) ∧
    (nonEmpty body.name ∧ nonEmpty body.categoryId ∧ nonEmpty body.eventDate →
      ∀ (ρ : Type) (handler : Unit → ρ),
        route (validateFoundAdd body) handler = Sum.inr (handler ()) ∧
        route (validateLostAdd body) handler = Sum.inr (handler ())) := by
  obtain ⟨f1, f2, f3⟩ := validateAdd_spec "foundDate" "Found date is required." body
  obtain ⟨l1, l2, l3⟩ := validateAdd_spec "lostDate" "Lost date is required." body
  refine ⟨f1, l1, fun hno => ⟨⟨_, f2 hno, f3, fun ρ handler => ?_⟩,
    ⟨_, l2 hno, l3, fun ρ handler => ?_⟩⟩, fun hall ρ handler => ⟨?_, ?_⟩⟩
  · unfold validateFoundAdd
    rw [f2 hno]
    rfl
  · unfold validateLostAdd
    rw [l2 hno]
    rfl
  · unfold validateFoundAdd
    rw [f1.mpr hall]
    rfl
  · unfold validateLostAdd
    rw [l1.mpr hall]
    rfl

/-- C20, witness: a body with a name, an empty category id and no date. -/
theorem add_validation_witness :
    ∃ errors, validateFoundAdd { name := some "Umbrella", categoryId := some "" } =
        Middleware.respond (Reply.json 400 errors) ∧
      errors.map Prod.fst = ["categoryId", "foundDate"] :=
  have h := ((add_validation { name := some "Umbrella", categoryId := some "" }).2.2.1
    (by decide)).1
  h.imp (fun _ he => ⟨he.1, he.2.1.trans (by decide)⟩)

/-! ## C21: the owner of a new item -/

theorem saveItem_userId (newId : String) (now : Int) (name : Option String)
    (description : String) (categoryId : Option String) (userId : String)
    (images : List String) (date : JsDate) (item : Item)
    (h : saveItem newId now name description categoryId userId images date = .ok item) :
    item.userId = userId ∧ some item.categoryId = categoryId ∧ item.id = newId := by
  unfold saveItem at h
  split at h
  · split at h
    · cases h
    · cases h
      exact ⟨rfl, rfl, rfl⟩
  · cases h

/-- C21: the item stored by a successful add request has the id of the authenticated caller
as its `userId`, and the outcome of the handler is the same for two requests of the same
caller with the same files and the same `name`, `description`, `categoryId` and date, whatever
other fields, a `userId` among them, the client has put in the body. -/
theorem add_owner_is_caller (newDate : String → JsDate) (newId : String) (now : Int)
    (db : Store) (req req2 : AddRequest) (hu : req2.userId = req.userId)
    (hf : req2.files = req.files) (hb : req2.body = req.body) :
    foundItemAdd newDate newId now db req2 = foundItemAdd newDate newId now db req ∧
    lostItemAdd newDate newId now db req2 = lostItemAdd newDate newId now db req ∧
    (∀ r, (foundItemAdd newDate newId now db req).reply = Reply.json 200 r →
      ∃ item, (foundItemAdd newDate newId now db req).db.foundItems = db.foundItems ++ [item] ∧
        item.userId = req.userId) ∧
    (∀ r, (lostItemAdd newDate newId now db req).reply = Reply.json 200 r →
      ∃ item, (lostItemAdd newDate newId now db req).db.lostItems = db.lostItems ++ [item] ∧
        item.userId = req.userId) := by
  refine ⟨?_, ?_, ?_, ?_⟩
  · unfold foundItemAdd
    rw [hu, hf, hb]
  · unfold lostItemAdd
    rw [hu, hf, hb]
  · intro r hr
    unfold foundItemAdd at hr ⊢
    simp only [] at hr ⊢
    cases hs : saveItem newId now req.body.name (orPrevious req.body.description "")
        req.body.categoryId req.userId (req.files.map (fun f => "img/found/" ++ f))
        (dateOfField newDate req.body.eventDate) with
    | error e =>
      rw [hs] at hr
      cases hr
    | ok item => exact ⟨item, rfl, (saveItem_userId _ _ _ _ _ _ _ _ _ hs).1⟩
  · intro r hr
    unfold lostItemAdd at hr ⊢
    simp only [] at hr ⊢
    cases hs : saveItem newId now req.body.name (orPrevious req.body.description "")
        req.body.categoryId req.userId (req.files.map (fun f => "img/lost/" ++ f))
        (dateOfField newDate req.body.eventDate) with
    | error e =>
      rw [hs] at hr
      cases hr
    | ok item => exact ⟨item, rfl, (saveItem_userId _ _ _ _ _ _ _ _ _ hs).1⟩

/-- C21, witness: the add request of "u1" with and without a forged `userId` field. -/
theorem add_owner_is_caller_witness :
    sampleAddForged ≠ sampleAdd ∧
    foundItemAdd sampleNewDate sampleNewId 1718500000000 photoStore sampleAddForged =
      foundItemAdd sampleNewDate sampleNewId 1718500000000 photoStore sampleAdd ∧
    (foundItemAdd sampleNewDate sampleNewId 1718500000000 photoStore sampleAdd).db.foundItems.map
      (fun d => d.userId) = ["u1", "u1"] :=
  ⟨by decide,
   (add_owner_is_caller sampleNewDate sampleNewId 1718500000000 photoStore sampleAdd
      sampleAddForged rfl rfl rfl).1,
   by decide⟩

/-! ## C22: the category of an item -/

/-- C22, counterexample: in a store whose items all refer to the category "c1", an add
request and an update request for a category id that no category has are both answered 200,
and the store then holds an item without a category. -/
theorem category_reference_not_checked :
    categoriesExist photoStore ∧
    (foundItemAdd sampleNewDate sampleNewId 1718500000000 photoStore
      sampleAddNoCategory).reply.status = 200 ∧
    ¬ categoriesExist (foundItemAdd sampleNewDate sampleNewId 1718500000000 photoStore
      sampleAddNoCategory).db ∧
    (foundItemUpdate sampleNewDate 1718500000000 photoStore
      { id := photoItem.id, userId := "u1", files := ["new.jpg"],
        categoryId := some unknownId }).reply.status = 200 ∧
    ¬ categoriesExist (foundItemUpdate sampleNewDate 1718500000000 photoStore
      { id := photoItem.id, userId := "u1", files := ["new.jpg"],
        categoryId := some unknownId }).db := by
  decide

theorem mem_replaceById (id : String) (new : Item) (docs : List Item) (x : Item)
    (h : x ∈ replaceById id new docs) : x = new ∨ x ∈ docs := by
  induction docs with
  | nil => cases h
  | cons d ds ih =>
    unfold replaceById at h
    split at h
    · rcases List.mem_cons.mp h with h1 | h1
      · exact Or.inl h1
      · exact Or.inr (List.mem_cons_of_mem d h1)
    · rcases List.mem_cons.mp h with h1 | h1
      · exact Or.inr (h1 ▸ List.mem_cons_self d ds)
      · rcases ih h1 with h2 | h2
        · exact Or.inl h2
        · exact Or.inr (List.mem_cons_of_mem d h2)

theorem findById_mem (docs : List Item) (id : String) (item : Item)
    (h : findById docs id = some item) : item ∈ docs :=
  List.mem_of_find?_eq_some h

/-- Every document that an update leaves in the collection was there before or has the
category that the request asks for, the previous one of some document when it asks for
none. -/
theorem itemUpdate_docs (newDate : String → JsDate) (dir notFound : String) (now : Int)
    (docs : List Item) (req : UpdateRequest) (x : Item)
    (hx : x ∈ (itemUpdate newDate dir notFound now docs req).docs) :
    x ∈ docs ∨ ∃ item ∈ docs, x.categoryId = orPrevious req.categoryId item.categoryId := by
  cases hfind : findById docs req.id with
  | none =>
    rw [itemUpdate_of_missing newDate dir notFound now docs req hfind] at hx
    exact Or.inl hx
  | some item =>
    by_cases howner : item.userId = req.userId
    · by_cases hfiles : req.files = []
      · rw [itemUpdate_without_files newDate dir notFound now docs req item hfind howner
          hfiles] at hx
        exact Or.inl hx
      · rw [itemUpdate_of_owner newDate dir notFound now docs req item hfind howner
          hfiles] at hx
        cases hc : castUpdate (updateDoc newDate req item (req.files.map (fun f => dir ++ f)))
            now item with
        | error e =>
          rw [hc] at hx
          exact Or.inl hx
        | ok new =>
          rw [hc] at hx
          rcases mem_replaceById _ _ _ _ hx with h1 | h1
          · right
            refine ⟨item, findById_mem _ _ _ hfind, ?_⟩
            rw [h1]
            unfold castUpdate at hc
            split at hc
            · cases hc
            · cases hc
              rfl
          · exact Or.inl h1
    · rw [itemUpdate_of_other_user newDate dir notFound now docs req item hfind howner] at hx
      exact Or.inl hx

/-- C22, amended: the handlers do not look the category up; starting from a store in which
every item refers to an existing category, an add request whose `categoryId` is the id of an
existing category, and an update request whose `categoryId` is absent, empty or the id of an
existing category, leave a store in which every item refers to an existing category. -/
theorem category_reference_preserved (newDate : String → JsDate) (newId : String) (now : Int)
    (db : Store) (areq : AddRequest) (ureq : UpdateRequest) (hinv : categoriesExist db) :
    ((∃ c ∈ db.categories, areq.body.categoryId = some c.id) →
      categoriesExist (foundItemAdd newDate newId now db areq).db ∧
      categoriesExist (lostItemAdd newDate newId now db areq).db) ∧
    ((¬ nonEmpty ureq.categoryId ∨ ∃ c ∈ db.categories, ureq.categoryId = some c.id) →
      categoriesExist (foundItemUpdate newDate now db ureq).db ∧
      categoriesExist (lostItemUpdate newDate now db ureq).db) := by
  have hold : ∀ item, item ∈ db.lostItems ∨ item ∈ db.foundItems →
      ∃ c ∈ db.categories, c.id = item.categoryId :=
    fun item h => hinv item (List.mem_append.mpr h)
  constructor
  · rintro ⟨c, hc, hcid⟩
    constructor
    · unfold foundItemAdd
      simp only []
      cases hs : saveItem newId now areq.body.name (orPrevious areq.body.description "")
          areq.body.categoryId areq.userId (areq.files.map (fun f => "img/found/" ++ f))
          (dateOfField newDate areq.body.eventDate) with
      | error e => exact hinv
      | ok item =>
        intro x hx
        simp only [List.mem_append, List.mem_singleton] at hx
        rcases hx with hx | hx | hx
        · exact hold x (Or.inl hx)
        · exact hold x (Or.inr hx)
        · have h2 := (saveItem_userId _ _ _ _ _ _ _ _ _ hs).2.1
          rw [hcid] at h2
          exact ⟨c, hc, by rw [hx]; exact (Option.some.inj h2).symm⟩
    · unfold lostItemAdd
      simp only []
      cases hs : saveItem newId now areq.body.name (orPrevious areq.body.description "")
          areq.body.categoryId areq.userId (areq.files.map (fun f => "img/lost/" ++ f))
          (dateOfField newDate areq.body.eventDate) with
      | error e => exact hinv
      | ok item =>
        intro x hx
        simp only [List.mem_append, List.mem_singleton] at hx
        rcases hx with (hx | hx) | hx
        · exact hold x (Or.inl hx)
        · have h2 := (saveItem_userId _ _ _ _ _ _ _ _ _ hs).2.1
          rw [hcid] at h2
          exact ⟨c, hc, by rw [hx]; exact (Option.some.inj h2).symm⟩
        · exact hold x (Or.inr hx)
  · intro hreq
    have hnew : ∀ item, (item ∈ db.lostItems ∨ item ∈ db.foundItems) →
        ∃ c ∈ db.categories, c.id = orPrevious ureq.categoryId item.categoryId := by
      intro item hitem
      rcases hreq with hno | ⟨c, hc, hcid⟩
      · rw [orPrevious_of_not_given _ _ hno]
        exact hold item hitem
      · by_cases hempty : c.id = ""
        · rw [orPrevious_of_not_given _ _
            (by rintro ⟨s, hs, hne⟩; rw [hcid] at hs; cases hs; exact hne hempty)]
          exact hold item hitem
        · rw [orPrevious_of_given _ _ c.id hcid hempty]
          exact ⟨c, hc, rfl⟩
    constructor
    · intro x hx
      unfold foundItemUpdate at hx
      simp only [List.mem_append] at hx
      rcases hx with hx | hx
      · exact hold x (Or.inl hx)
      · rcases itemUpdate_docs _ _ _ _ _ _ x hx with h1 | ⟨item, hitem, hcat⟩
        · exact hold x (Or.inr h1)
        · rw [hcat]
          exact hnew item (Or.inr hitem)
    · intro x hx
      unfold lostItemUpdate at hx
      simp only [List.mem_append] at hx
      rcases hx with hx | hx
      · rcases itemUpdate_docs _ _ _ _ _ _ x hx with h1 | ⟨item, hitem, hcat⟩
        · exact hold x (Or.inl h1)
        · rw [hcat]
          exact hnew item (Or.inl hitem)
      · exact hold x (Or.inr hx)

/-- C22, witness: an add request for the existing category "c1". -/
theorem category_reference_preserved_witness :
    categoriesExist (foundItemAdd sampleNewDate sampleNewId 1718500000000 photoStore
      sampleAdd).db ∧
    (foundItemAdd sampleNewDate sampleNewId 1718500000000 photoStore
      sampleAdd).reply.status = 200 :=
  ⟨((category_reference_preserved sampleNewDate sampleNewId 1718500000000 photoStore sampleAdd
      { id := photoItem.id, userId := "u1" } (by decide)).1
      ⟨{ id := "c1", name := "Clothing and accessories" }, by decide, rfl⟩).1,
   by decide⟩

/-! ## C27: the answer to a lost-item add request -/

/-- C27, the code at the failing input: the answer of `lostItemAdd` to a successful request of
the user "u1" has no `userId`, the handler reading `lostItem.user`, while the item is stored
with the `userId` "u1" and `foundItemAdd` answers the same request with `userId` "u1". -/
theorem lost_add_answer_has_no_userId :
    (lostItemAdd sampleNewDate sampleNewId 1718500000000 photoStore sampleAdd).reply =
      Reply.json 200
        { id := sampleNewId, name := "Scarf", description := some "red wool", userId := none,
          categoryId := "c1", images := ["img/lost/a.jpg"], eventDate := 1718409600000,
          createdAt := 1718500000000, updatedAt := 1718500000000 } ∧
    (lostItemAdd sampleNewDate sampleNewId 1718500000000 photoStore sampleAdd).db.lostItems.map
      (fun d => d.userId) = ["u1", "u1"] ∧
    (foundItemAdd sampleNewDate sampleNewId 1718500000000 photoStore sampleAdd).reply =
      Reply.json 200
        { id := sampleNewId, name := "Scarf", description := none, userId := some "u1",
          categoryId := "c1", images := ["img/found/a.jpg"], eventDate := 1718409600000,
          createdAt := 1718500000000, updatedAt := 1718500000000 } := by
  decide

/-! ## C23: a date that is not a date -/

theorem searchFilter_fault_of_invalid_date (newDate : String → JsDate) (q : SearchQuery)
    (h : ∃ d, (q.dateFrom = some d ∨ q.dateTo = some d) ∧ d ≠ "" ∧ newDate d = none) :
    (searchFilter newDate q).fault = some Fault.castDate := by
  obtain ⟨d, hd, hne, hbad⟩ := h
  unfold Filter.fault
  rw [searchFilter_eventDate]
  have ht : truthy (some d) = true := by simp [truthy, hne]
  rcases hd with hd | hd
  · rw [hd]
    simp [ht, hbad, DateRange.invalid]
  · rw [hd]
    simp [ht, hbad, DateRange.invalid]

theorem itemSearch_of_fault (newDate : String → JsDate) (cats : List Category)
    (docs : List Item) (q : SearchQuery) (e : Fault)
    (h : (searchFilter newDate q).fault = some e) :
    itemSearch newDate cats docs q = Reply.unexpected e := by
  unfold itemSearch searchSteps findSorted find
  simp only [h, bind, Except.bind]

/-- C23, counterexample: the search with `dateFrom=someday` is answered 500, not 400. -/
theorem invalid_date_is_500 :
    sampleNewDate "someday" = none ∧
    foundItemSearch sampleNewDate sampleStore { dateFrom := some "someday" } =
      Reply.unexpected Fault.castDate ∧
    (foundItemSearch sampleNewDate sampleStore { dateFrom := some "someday" }).status = 500 ∧
    lostItemSearch sampleNewDate sampleStore { dateTo := some "someday" } =
      Reply.unexpected Fault.castDate := by
  decide

/-- C23, amended: a search request whose `dateFrom` or `dateTo` is a non-empty string that is
not a date fails with the cast error of the store, status 500: it is not answered with
results, and the bound is not taken as absent. -/
theorem invalid_date_fails (newDate : String → JsDate) (db : Store) (q : SearchQuery)
    (h : ∃ d, (q.dateFrom = some d ∨ q.dateTo = some d) ∧ d ≠ "" ∧ newDate d = none) :
    foundItemSearch newDate db q = Reply.unexpected Fault.castDate ∧
    lostItemSearch newDate db q = Reply.unexpected Fault.castDate ∧
    (foundItemSearch newDate db q).status = 500 ∧
    (lostItemSearch newDate db q).status = 500 ∧
    (∀ status body, foundItemSearch newDate db q ≠ Reply.json status body) ∧
    (∀ status body, lostItemSearch newDate db q ≠ Reply.json status body) := by
  have hf : foundItemSearch newDate db q = Reply.unexpected Fault.castDate :=
    itemSearch_of_fault _ _ _ _ _ (searchFilter_fault_of_invalid_date newDate q h)
  have hl : lostItemSearch newDate db q = Reply.unexpected Fault.castDate :=
    itemSearch_of_fault _ _ _ _ _ (searchFilter_fault_of_invalid_date newDate q h)
  rw [hf, hl]
  exact ⟨rfl, rfl, rfl, rfl, fun _ _ hc => Reply.noConfusion hc,
    fun _ _ hc => Reply.noConfusion hc⟩

/-- C23, witness: `dateTo=someday` on the sample store. -/
theorem invalid_date_fails_witness :
    (foundItemSearch sampleNewDate sampleStore { dateTo := some "someday" }).status = 500 :=
  (invalid_date_fails sampleNewDate sampleStore { dateTo := some "someday" }
    ⟨"someday", Or.inr rfl, by decide, by decide⟩).2.2.1

/-! ## C24: the field of the sort -/

/-- C24, the code at the failing input: of two found items the one created first was found
last; with `sort=asc` the search lists them in order of creation, hence in decreasing order
of `foundDate`. -/
theorem sort_is_not_by_event_date :
    (match foundItemSearch sampleNewDate crossedStore { sort := some "asc" } with
      | Reply.json _ body => body.items.map (fun v => (v.id, v.eventDate, v.createdAt))
      | _ => []) =
      [("i1", 1718409600000, 1718500000000), ("i2", 1718323200000, 1718600000000)] ∧
    (foundItemSearch sampleNewDate crossedStore { sort := some "asc" }).status = 200 ∧
    ¬ ((1718409600000 : Int) ≤ 1718323200000) := by
  decide

/-! ## C25: the categories of a query -/

/-- C25, the code at the failing input: for the query "Documents" the answer lists both
categories of the store, the first of which, "Clothing and accessories", does not match the
query. -/
theorem categories_not_filtered_by_name :
    getCategories sampleNewDate twoCategoryStore { query := some "Documents" } =
      Reply.json 200
        [{ id := "c1", name := "Clothing and accessories", lostItemsCount := 0,
           foundItemsCount := 0 },
         { id := "c2", name := "Documents", lostItemsCount := 0, foundItemsCount := 0 }] ∧
    regexTest "Documents" "Clothing and accessories" = false ∧
    ¬ containsIgnoreCase "Clothing and accessories" "Documents" := by
  decide

/-! ## C26: the forgot-password flow -/

/-- The handler reads the users only: the verification codes play no part in it. -/
theorem changePassword_ignores_codes (hash : String → String) (st : AuthState)
    (codes : List AuthCode) (email newPassword : String) :
    (forgotPasswordChangePassword hash { st with codes := codes } email newPassword).1 =
      (forgotPasswordChangePassword hash st email newPassword).1 ∧
    (forgotPasswordChangePassword hash { st with codes := codes } email newPassword).2.users =
      (forgotPasswordChangePassword hash st email newPassword).2.users := by
  unfold forgotPasswordChangePassword
  cases st.users.find? (fun u => u.email == email) <;> exact ⟨rfl, rfl⟩

/-- C26, the code at the failing input: a run of one request, a change of password for the
email of an existing user, without any verification request and without any code in the
store, is answered 200 and replaces the stored password. -/
theorem password_changed_without_verification :
    ¬ verifies "ann@example.org" [(1718500000000,
      AuthRequest.changePassword "ann@example.org" "letmein")] ∧
    authStart.codes = [] ∧
    passwordOf authStart "ann@example.org" = some "x" ∧
    (authStep sampleHash authStart 1718500000000
      (AuthRequest.changePassword "ann@example.org" "letmein")).1 =
        Reply.message 200 "Password changed successfully." ∧
    passwordOf (runAuth sampleHash authStart [(1718500000000,
      AuthRequest.changePassword "ann@example.org" "letmein")]) "ann@example.org" =
        some "hash:letmein" := by
  refine ⟨?_, by decide, by decide, by decide, by decide⟩
  rintro ⟨x, hx, code, hcode⟩
  simp only [List.mem_singleton] at hx
  subst hx
  cases hcode

/-! ## C28: the bootstrap of the categories -/

/-- C28: on an empty category collection `createCategories` inserts the three starter
categories, in order; on a non-empty one it changes nothing; run a second time it changes
nothing, so twice is the same as once; it keeps every category it finds. -/
theorem createCategories_idempotent (newId newId2 : Nat → String) (stored : List Category) :
    (stored = [] → (createCategories newId stored).map (fun c => c.name) =
      ["Electronics", "Documents", "Clothing and accessories"]) ∧
    (stored ≠ [] → createCategories newId stored = stored) ∧
    createCategories newId2 (createCategories newId stored) = createCategories newId stored ∧
    (∀ c ∈ stored, c ∈ createCategories newId stored) := by
  refine ⟨?_, ?_, ?_, ?_⟩
  · intro h
    subst h
    rfl
  · intro h
    cases stored with
    | nil => exact absurd rfl h
    | cons c cs => rfl
  · cases stored with
    | nil => rfl
    | cons c cs => rfl
  · intro c hc
    cases stored with
    | nil => cases hc
    | cons d ds => exact hc

/-- C28, witness: the bootstrap of a store that has one category already. -/
theorem createCategories_idempotent_witness :
    createCategories (fun i => toString i) sampleStore.categories = sampleStore.categories :=
  (createCategories_idempotent (fun i => toString i) (fun i => toString i)
    sampleStore.categories).2.1 (by decide)

/-! ## C30: where an uploaded file is stored -/

/-- C30, the code at the failing input: for the lost-item add request `/api/lost/add?ref=found`
the storage puts the file `a.jpg` in `./public/img/found/`, the URL including "found", while
`lostItemAdd` records `img/lost/a.jpg`, which is the file `./public/img/lost/a.jpg`; without
the query string the two agree. -/
theorem upload_directory_follows_query_string :
    destination "/api/lost/add?ref=found" ++ "a.jpg" = "./public/img/found/a.jpg" ∧
    (lostItemAdd sampleNewDate sampleNewId 1718500000000 photoStore sampleAdd).db.lostItems.map
      (fun d => d.images.map imagePath) =
      [["./public/img/lost/old.jpg"], ["./public/img/lost/a.jpg"]] ∧
    destination "/api/lost/add?ref=found" ++ "a.jpg" ≠ imagePath ("img/lost/" ++ "a.jpg") ∧
    destination "/api/lost/add" ++ "a.jpg" = imagePath ("img/lost/" ++ "a.jpg") ∧
    destination "/api/found/add" ++ "a.jpg" = imagePath ("img/found/" ++ "a.jpg") := by
  decide

/-! ## The model with one date field and the two handlers of the source -/

theorem lost_filter_is_searchFilter (newDate : String → JsDate) (q : SearchQuery) :
    (searchFilter newDate q).eventDate = (Source.lostFilter newDate q).lostDate ∧
    (searchFilter newDate q).or = (Source.lostFilter newDate q).or ∧
    (searchFilter newDate q).categoryId = (Source.lostFilter newDate q).categoryId := by
  unfold searchFilter addDateBounds addTextCondition addCategoryCondition Filter.setGte
    Filter.setLte Source.lostFilter
  cases q.dateFrom <;> cases q.dateTo <;> simp only [] <;> split_ifs <;> exact ⟨rfl, rfl, rfl⟩

theorem lost_listItem_toItem (cats : List Category) (d : Source.LostItem) :
    listItem cats d.toItem =
      match Source.lostListItem cats d with
      | .ok v => .ok v.toListed
      | .error e => .error e := by
  unfold listItem populateCategory Source.lostListItem
  show (match cats.find? (fun c => c.id == d.categoryId) with
    | none => _
    | some c => _) = _
  cases cats.find? (fun c => c.id == d.categoryId) <;> rfl

theorem lost_mapM_toItem (cats : List Category) (docs : List Source.LostItem) :
    (docs.map Source.LostItem.toItem).mapM (listItem cats) =
      match docs.mapM (Source.lostListItem cats) with
      | .ok vs => .ok (vs.map Source.LostListed.toListed)
      | .error e => .error e := by
  induction docs with
  | nil => rfl
  | cons d ds ih =>
    rw [List.map_cons, List.mapM_cons, List.mapM_cons, lost_listItem_toItem, ih]
    cases Source.lostListItem cats d with
    | error e => rfl
    | ok v =>
      cases ds.mapM (Source.lostListItem cats) with
      | error e => rfl
      | ok vs => rfl

/-- The model with one date field is the handler `lostItemSearch` of the source, the field
`lostDate` being read as `eventDate`. -/
theorem lost_search_is_itemSearch (newDate : String → JsDate) (cats : List Category)
    (docs : List Source.LostItem) (q : SearchQuery) :
    itemSearch newDate cats (docs.map Source.LostItem.toItem) q =
      Source.lostReply (Source.lostItemSearch newDate cats docs q) := by
  obtain ⟨h1, h2, h3⟩ := lost_filter_is_searchFilter newDate q
  have hmatch : ∀ d : Source.LostItem, (searchFilter newDate q).matches d.toItem =
      (Source.lostFilter newDate q).matches d := by
    intro d
    unfold Filter.matches Filter.dateOk Filter.textOk Filter.categoryOk textHolds
      Source.LostFilter.matches
    rw [h1, h2, h3]
    rfl
  have hfault : (searchFilter newDate q).fault = (Source.lostFilter newDate q).fault := by
    unfold Filter.fault Source.LostFilter.fault
    rw [h1, h2]
  have hfilter : (docs.map Source.LostItem.toItem).filter (searchFilter newDate q).matches =
      (docs.filter (Source.lostFilter newDate q).matches).map Source.LostItem.toItem := by
    rw [List.filter_map]
    congr 1
    congr 1
    funext d
    exact hmatch d
  have hsort : ∀ (dir : Int) (l : List Source.LostItem),
      sortByCreatedAt dir (l.map Source.LostItem.toItem) =
        (Source.lostSort dir l).map Source.LostItem.toItem := by
    intro dir l
    unfold sortByCreatedAt Source.lostSort
    split
    · exact (List.map_insertionSort (fun a b : Source.LostItem => a.createdAt ≤ b.createdAt)
        (fun a b : Item => a.createdAt ≤ b.createdAt) Source.LostItem.toItem l
        (fun _ _ _ _ => Iff.rfl)).symm
    · exact (List.map_insertionSort (fun a b : Source.LostItem => b.createdAt ≤ a.createdAt)
        (fun a b : Item => b.createdAt ≤ a.createdAt) Source.LostItem.toItem l
        (fun _ _ _ _ => Iff.rfl)).symm
  unfold itemSearch searchSteps findSorted countDocuments find Source.lostItemSearch
    Source.lostFindSorted Source.lostCount
  simp only [bind, Except.bind, pure, Except.pure]
  rw [hfault]
  cases (Source.lostFilter newDate q).fault with
  | some e => rfl
  | none =>
    simp only []
    by_cases hskip : (itemsPerPage : Int) * pageIndex q.page < 0
    · simp only [hskip, if_true]
      rfl
    · simp only [hskip, if_false]
      rw [hfilter, hsort, ← List.map_drop, ← List.map_take, lost_mapM_toItem, List.length_map]
      cases (List.take itemsPerPage (List.drop ((itemsPerPage : Int) * pageIndex q.page).toNat
          (Source.lostSort (sortDirection q.sort)
            (docs.filter (Source.lostFilter newDate q).matches)))).mapM
          (Source.lostListItem cats) with
      | error e => rfl
      | ok vs => rfl

theorem found_filter_is_searchFilter (newDate : String → JsDate) (q : SearchQuery) :
    (searchFilter newDate q).eventDate = (Source.foundFilter newDate q).foundDate ∧
    (searchFilter newDate q).or = (Source.foundFilter newDate q).or ∧
    (searchFilter newDate q).categoryId = (Source.foundFilter newDate q).categoryId := by
  unfold searchFilter addDateBounds addTextCondition addCategoryCondition Filter.setGte
    Filter.setLte Source.foundFilter
  cases q.dateFrom <;> cases q.dateTo <;> simp only [] <;> split_ifs <;> exact ⟨rfl, rfl, rfl⟩

theorem found_listItem_toItem (cats : List Category) (d : Source.FoundItem) :
    listItem cats d.toItem =
      match Source.foundListItem cats d with
      | .ok v => .ok v.toListed
      | .error e => .error e := by
  unfold listItem populateCategory Source.foundListItem
  show (match cats.find? (fun c => c.id == d.categoryId) with
    | none => _
    | some c => _) = _
  cases cats.find? (fun c => c.id == d.categoryId) <;> rfl

theorem found_mapM_toItem (cats : List Category) (docs : List Source.FoundItem) :
    (docs.map Source.FoundItem.toItem).mapM (listItem cats) =
      match docs.mapM (Source.foundListItem cats) with
      | .ok vs => .ok (vs.map Source.FoundListed.toListed)
      | .error e => .error e := by
  induction docs with
  | nil => rfl
  | cons d ds ih =>
    rw [List.map_cons, List.mapM_cons, List.mapM_cons, found_listItem_toItem, ih]
    cases Source.foundListItem cats d with
    | error e => rfl
    | ok v =>
      cases ds.mapM (Source.foundListItem cats) with
      | error e => rfl
      | ok vs => rfl

/-- The model with one date field is the handler `foundItemSearch` of the source, the field
`foundDate` being read as `eventDate`. -/
theorem found_search_is_itemSearch (newDate : String → JsDate) (cats : List Category)
    (docs : List Source.FoundItem) (q : SearchQuery) :
    itemSearch newDate cats (docs.map Source.FoundItem.toItem) q =
      Source.foundReply (Source.foundItemSearch newDate cats docs q) := by
  obtain ⟨h1, h2, h3⟩ := found_filter_is_searchFilter newDate q
  have hmatch : ∀ d : Source.FoundItem, (searchFilter newDate q).matches d.toItem =
      (Source.foundFilter newDate q).matches d := by
    intro d
    unfold Filter.matches Filter.dateOk Filter.textOk Filter.categoryOk textHolds
      Source.FoundFilter.matches
    rw [h1, h2, h3]
    rfl
  have hfault : (searchFilter newDate q).fault = (Source.foundFilter newDate q).fault := by
    unfold Filter.fault Source.FoundFilter.fault
    rw [h1, h2]
  have hfilter : (docs.map Source.FoundItem.toItem).filter (searchFilter newDate q).matches =
      (docs.filter (Source.foundFilter newDate q).matches).map Source.FoundItem.toItem := by
    rw [List.filter_map]
    congr 1
    congr 1
    funext d
    exact hmatch d
  have hsort : ∀ (dir : Int) (l : List Source.FoundItem),
      sortByCreatedAt dir (l.map Source.FoundItem.toItem) =
        (Source.foundSort dir l).map Source.FoundItem.toItem := by
    intro dir l
    unfold sortByCreatedAt Source.foundSort
    split
    · exact (List.map_insertionSort (fun a b : Source.FoundItem => a.createdAt ≤ b.createdAt)
        (fun a b : Item => a.createdAt ≤ b.createdAt) Source.FoundItem.toItem l
        (fun _ _ _ _ => Iff.rfl)).symm
    · exact (List.map_insertionSort (fun a b : Source.FoundItem => b.createdAt ≤ a.createdAt)
        (fun a b : Item => b.createdAt ≤ a.createdAt) Source.FoundItem.toItem l
        (fun _ _ _ _ => Iff.rfl)).symm
  unfold itemSearch searchSteps findSorted countDocuments find Source.foundItemSearch
    Source.foundFindSorted Source.foundCount
  simp only [bind, Except.bind, pure, Except.pure]
  rw [hfault]
  cases (Source.foundFilter newDate q).fault with
  | some e => rfl
  | none =>
    simp only []
    by_cases hskip : (itemsPerPage : Int) * pageIndex q.page < 0
    · simp only [hskip, if_true]
      rfl
    · simp only [hskip, if_false]
      rw [hfilter, hsort, ← List.map_drop, ← List.map_take, found_mapM_toItem, List.length_map]
      cases (List.take itemsPerPage (List.drop ((itemsPerPage : Int) * pageIndex q.page).toNat
          (Source.foundSort (sortDirection q.sort)
            (docs.filter (Source.foundFilter newDate q).matches)))).mapM
          (Source.foundListItem cats) with
      | error e => rfl
      | ok vs => rfl

/-! ## C29: the two search handlers are one pipeline -/

theorem source_filters_agree (newDate : String → JsDate) (q : SearchQuery) :
    (Source.foundFilter newDate q).foundDate = (Source.lostFilter newDate q).lostDate ∧
    (Source.foundFilter newDate q).or = (Source.lostFilter newDate q).or ∧
    (Source.foundFilter newDate q).categoryId = (Source.lostFilter newDate q).categoryId := by
  unfold Source.foundFilter Source.lostFilter
  cases q.dateFrom <;> cases q.dateTo <;> simp only [] <;> split_ifs <;> exact ⟨rfl, rfl, rfl⟩

theorem source_matches_rename (f : Source.LostFilter) (g : Source.FoundFilter)
    (h1 : g.foundDate = f.lostDate) (h2 : g.or = f.or) (h3 : g.categoryId = f.categoryId)
    (d : Source.LostItem) : g.matches (Source.renameItem d) = f.matches d := by
  unfold Source.FoundFilter.matches Source.LostFilter.matches
  rw [h1, h2, h3]
  rfl

theorem source_fault_rename (f : Source.LostFilter) (g : Source.FoundFilter)
    (h1 : g.foundDate = f.lostDate) (h2 : g.or = f.or) : g.fault = f.fault := by
  unfold Source.FoundFilter.fault Source.LostFilter.fault
  rw [h1, h2]

theorem source_filter_rename (f : Source.LostFilter) (g : Source.FoundFilter)
    (h1 : g.foundDate = f.lostDate) (h2 : g.or = f.or) (h3 : g.categoryId = f.categoryId)
    (docs : List Source.LostItem) :
    (docs.map Source.renameItem).filter g.matches =
      (docs.filter f.matches).map Source.renameItem := by
  rw [List.filter_map]
  congr 1
  congr 1
  funext d
  exact source_matches_rename f g h1 h2 h3 d

theorem source_sort_rename (dir : Int) (docs : List Source.LostItem) :
    Source.foundSort dir (docs.map Source.renameItem) =
      (Source.lostSort dir docs).map Source.renameItem := by
  unfold Source.foundSort Source.lostSort
  split
  · exact (List.map_insertionSort (fun a b : Source.LostItem => a.createdAt ≤ b.createdAt)
      (fun a b : Source.FoundItem => a.createdAt ≤ b.createdAt) Source.renameItem docs
      (fun _ _ _ _ => Iff.rfl)).symm
  · exact (List.map_insertionSort (fun a b : Source.LostItem => b.createdAt ≤ a.createdAt)
      (fun a b : Source.FoundItem => b.createdAt ≤ a.createdAt) Source.renameItem docs
      (fun _ _ _ _ => Iff.rfl)).symm

theorem source_findSorted_rename (f : Source.LostFilter) (g : Source.FoundFilter)
    (h1 : g.foundDate = f.lostDate) (h2 : g.or = f.or) (h3 : g.categoryId = f.categoryId)
    (docs : List Source.LostItem) (dir skip : Int) (limit : Nat) :
    Source.foundFindSorted (docs.map Source.renameItem) g dir skip limit =
      match Source.lostFindSorted docs f dir skip limit with
      | .ok l => .ok (l.map Source.renameItem)
      | .error e => .error e := by
  unfold Source.foundFindSorted Source.lostFindSorted
  rw [source_fault_rename f g h1 h2]
  cases f.fault with
  | some e => rfl
  | none =>
    simp only []
    split
    · rfl
    · simp only []
      rw [source_filter_rename f g h1 h2 h3, source_sort_rename, List.map_take, List.map_drop]

theorem source_count_rename (f : Source.LostFilter) (g : Source.FoundFilter)
    (h1 : g.foundDate = f.lostDate) (h2 : g.or = f.or) (h3 : g.categoryId = f.categoryId)
    (docs : List Source.LostItem) :
    Source.foundCount (docs.map Source.renameItem) g = Source.lostCount docs f := by
  unfold Source.foundCount Source.lostCount
  rw [source_fault_rename f g h1 h2, source_filter_rename f g h1 h2 h3, List.length_map]

theorem source_listItem_rename (cats : List Category) (d : Source.LostItem) :
    Source.foundListItem cats (Source.renameItem d) =
      match Source.lostListItem cats d with
      | .ok v => .ok (Source.renameListed v)
      | .error e => .error e := by
  unfold Source.foundListItem Source.lostListItem
  show (match cats.find? (fun c => c.id == d.categoryId) with
    | none => _
    | some c => _) = _
  cases cats.find? (fun c => c.id == d.categoryId) <;> rfl

theorem source_mapM_rename (cats : List Category) (docs : List Source.LostItem) :
    (docs.map Source.renameItem).mapM (Source.foundListItem cats) =
      match docs.mapM (Source.lostListItem cats) with
      | .ok vs => .ok (vs.map Source.renameListed)
      | .error e => .error e := by
  induction docs with
  | nil => rfl
  | cons d ds ih =>
    rw [List.map_cons, List.mapM_cons, List.mapM_cons, source_listItem_rename, ih]
    cases Source.lostListItem cats d with
    | error e => rfl
    | ok v =>
      cases ds.mapM (Source.lostListItem cats) with
      | error e => rfl
      | ok vs => rfl

/-- C29: for every request, every list of categories and every lost collection, the answer
of `lostItemSearch`, with `lostDate` renamed to `foundDate` and the list key `lostItems` to
`foundItems`, is the answer of `foundItemSearch` on the found collection that is the lost
one under the same renaming, each handler being transcribed from its own controller; the
status, `totalItems`, `totalPages` and `page` are the same. -/
theorem search_handlers_agree (newDate : String → JsDate) (cats : List Category)
    (lostDocs : List Source.LostItem) (foundDocs : List Source.FoundItem) (q : SearchQuery)
    (hstores : foundDocs = lostDocs.map Source.renameItem) :
    Source.renameReply (Source.lostItemSearch newDate cats lostDocs q) =
      Source.foundItemSearch newDate cats foundDocs q ∧
    (Source.lostItemSearch newDate cats lostDocs q).status =
      (Source.foundItemSearch newDate cats foundDocs q).status ∧
    (∀ lostBody, Source.lostItemSearch newDate cats lostDocs q = Reply.json 200 lostBody →
      ∃ foundBody, Source.foundItemSearch newDate cats foundDocs q = Reply.json 200 foundBody ∧
        foundBody.totalItems = lostBody.totalItems ∧
        foundBody.totalPages = lostBody.totalPages ∧
        foundBody.page = lostBody.page ∧
        foundBody.foundItems = lostBody.lostItems.map Source.renameListed) := by
  obtain ⟨h1, h2, h3⟩ := source_filters_agree newDate q
  have key : Source.renameReply (Source.lostItemSearch newDate cats lostDocs q) =
      Source.foundItemSearch newDate cats foundDocs q := by
    subst hstores
    unfold Source.foundItemSearch Source.lostItemSearch
    simp only []
    rw [source_findSorted_rename _ _ h1 h2 h3, source_count_rename _ _ h1 h2 h3]
    cases Source.lostFindSorted lostDocs (Source.lostFilter newDate q) (sortDirection q.sort)
        (itemsPerPage * pageIndex q.page) itemsPerPage with
    | error e => rfl
    | ok found =>
      simp only []
      rw [source_mapM_rename]
      cases found.mapM (Source.lostListItem cats) with
      | error e => rfl
      | ok vs =>
        simp only []
        cases Source.lostCount lostDocs (Source.lostFilter newDate q) with
        | error e => rfl
        | ok n => rfl
  refine ⟨key, ?_, ?_⟩
  · rw [← key]
    cases Source.lostItemSearch newDate cats lostDocs q <;> rfl
  · intro lostBody hl
    rw [← key, hl]
    exact ⟨_, rfl, rfl, rfl, rfl, rfl⟩

/-- C29, witness: twenty-five lost documents and their renaming, `sort=asc&page=2`. -/
theorem search_handlers_agree_witness :
    (Source.lostItemSearch sampleNewDate scenarioStore.categories Source.lostScenario
      { sort := some "asc", page := PageParam.numeric 2 }).status = 200 ∧
    (Source.foundItemSearch sampleNewDate scenarioStore.categories
      (Source.lostScenario.map Source.renameItem)
      { sort := some "asc", page := PageParam.numeric 2 }).status = 200 :=
  have h := (search_handlers_agree sampleNewDate scenarioStore.categories Source.lostScenario
    (Source.lostScenario.map Source.renameItem)
    { sort := some "asc", page := PageParam.numeric 2 } rfl).2.1
  ⟨by decide, h ▸ (by decide)⟩

end LostAndFound
